import Mathlib

/-!
Verification of the LTC3351 register/transport driver (`LTC3351.py`).

The development shallowly embeds the driver's pure computational core:

* the bit-field extraction/packing engine (`_extract`, `_pack`);
* the two's-complement conversions (`_signedToTwosComplement`,
  `_twosComplementToSigned`);
* the calibrated piecewise-linear format transform
  (`_transform_from_points`, modelled over `ℚ`);
* the preset/format read-write pipeline (`_format`, `_unformat`,
  `_write_bf`) together with the register map;
* the `__setattr__` attribute guard and the `get_status` bulk snapshot;
* the DC590 transport layer (`_pec` checksum, `_read_word_nopec`,
  `_read_word_pec`, `_read_byte_pec` response processing).

Python integers are embedded as `ℕ`/`ℤ` (with explicit masking where the
source masks), Python floats as exact rationals, and raising an exception
as returning `Except.error`.  Diagnostic `print` calls in the source do not
affect computed values and are not modelled.
-/

namespace LTC3351

/-- Register width used throughout the class (`self.word_size = 16`). -/
def word_size : ℕ := 16

/-- Exceptions the driver can raise.  `api` is `LTC3351_APIException`
(raised by `self._error`), the others are ordinary Python exceptions that
escape from the same code paths. -/
inductive PyErr
  | api (msg : String)
  | assertionError
  | attributeError
  | valueError
  | keyError
  | busException (msg : String)
  deriving Repr, DecidableEq

instance {ε α : Type} [DecidableEq ε] [DecidableEq α] : DecidableEq (Except ε α) :=
  fun x y =>
    match x, y with
    | .ok a, .ok b => if h : a = b then .isTrue (by rw [h]) else .isFalse (by simp [h])
    | .error a, .error b => if h : a = b then .isTrue (by rw [h]) else .isFalse (by simp [h])
    | .ok _, .error _ => .isFalse (by simp)
    | .error _, .ok _ => .isFalse (by simp)

/-- `_extract(self, data, size, offset)`:
`result = (data >> offset) & ((1<<size)-1)`. -/
def _extract (data size offset : ℕ) : ℕ :=
  (data >>> offset) &&& ((1 <<< size) - 1)

/-- `_pack(self, data, size, offset, old_register_contents=0)`:
`mask = ((1<<self.word_size)-1) ^ (((1<<size)-1)<<offset)`,
`masked = old_register_contents & mask`; raises
`LTC3351_APIException` when `data >= (1<<size) or data < 0` (the second
disjunct is vacuous for `ℕ`); otherwise returns `(data<<offset) | masked`. -/
def _pack (data size offset old_register_contents : ℕ) : Except PyErr ℕ :=
  let mask := ((1 <<< word_size) - 1) ^^^ (((1 <<< size) - 1) <<< offset)
  let masked := old_register_contents &&& mask
  if data ≥ (1 <<< size) then
    .error (.api s!"Data does not fit in field of size {size}.")
  else
    .ok ((data <<< offset) ||| masked)

/-- `_signedToTwosComplement(self, signed, bitCount)`: clamp into
`[-2^(bitCount-1), 2^(bitCount-1)-1]` (printing a warning, not raising),
then `if signed < 0: signed += 2**bitCount; signed &= 2**bitCount-1`. -/
def _signedToTwosComplement (signed : ℤ) (bitCount : ℕ) : ℤ :=
  let s1 : ℤ :=
    if signed > 2 ^ (bitCount - 1) - 1 then 2 ^ (bitCount - 1) - 1
    else if signed < -(2 ^ (bitCount - 1)) then -(2 ^ (bitCount - 1))
    else signed
  if s1 < 0 then Int.land (s1 + 2 ^ bitCount) (2 ^ bitCount - 1) else s1

/-- `_twosComplementToSigned(self, binary, bitCount)`: under the asserted
precondition `0 <= binary <= 2**bitCount - 1`,
`if binary >= 2**(bitCount-1): binary -= 2**bitCount`. -/
def _twosComplementToSigned (binary : ℕ) (bitCount : ℕ) : Except PyErr ℤ :=
  if binary ≤ 2 ^ bitCount - 1 then
    if binary ≥ 2 ^ (bitCount - 1) then
      .ok ((binary : ℤ) - 2 ^ bitCount)
    else
      .ok (binary : ℤ)
  else
    .error .assertionError

/-! ### Bit-level helper lemmas -/

theorem shiftLeft_one_sub_one (size : ℕ) : (1 <<< size) - 1 = 2 ^ size - 1 := by
  simp [Nat.shiftLeft_eq]

theorem extract_eq (data size offset : ℕ) :
    _extract data size offset = (data >>> offset) % 2 ^ size := by
  unfold _extract
  rw [shiftLeft_one_sub_one, Nat.and_pow_two_sub_one_eq_mod]

/-- Bits of the source's complement mask
`((1<<16)-1) ^^^ (((1<<size)-1)<<offset)`. -/
theorem mask_compl_testBit (size offset i : ℕ) (hso : offset + size ≤ 16) :
    (((1 <<< word_size) - 1) ^^^ (((1 <<< size) - 1) <<< offset)).testBit i =
      (decide (i < 16) && !(decide (offset ≤ i) && decide (i - offset < size))) := by
  rw [shiftLeft_one_sub_one, shiftLeft_one_sub_one, word_size]
  rw [Nat.testBit_xor, Nat.testBit_shiftLeft, Nat.testBit_two_pow_sub_one,
    Nat.testBit_two_pow_sub_one]
  by_cases hge : offset ≤ i
  · by_cases hlt : i - offset < size
    · have h16 : i < 16 := by omega
      simp [hge, hlt, h16, ge_iff_le]
    · simp [hge, hlt, ge_iff_le]
  · simp [hge, ge_iff_le]

/-- Bits of the field mask `((1<<size)-1) <<< offset`. -/
theorem mask_testBit (size offset i : ℕ) :
    ((((1 <<< size) - 1)) <<< offset).testBit i =
      (decide (offset ≤ i) && decide (i - offset < size)) := by
  rw [shiftLeft_one_sub_one, Nat.testBit_shiftLeft, Nat.testBit_two_pow_sub_one]

theorem testBit_of_lt_two_pow {x n i : ℕ} (hx : x < 2 ^ n) (hi : n ≤ i) :
    x.testBit i = false :=
  Nat.testBit_lt_two_pow (lt_of_lt_of_le hx (Nat.pow_le_pow_right (by norm_num) hi))

/-- C1 (helper): the value `_pack` produces. -/
theorem pack_ok (data size offset old : ℕ) (hdata : data < 2 ^ size) :
    _pack data size offset old =
      .ok ((data <<< offset) |||
        (old &&& (((1 <<< word_size) - 1) ^^^ (((1 <<< size) - 1) <<< offset)))) := by
  have h1 : (1 : ℕ) <<< size = 2 ^ size := by rw [Nat.shiftLeft_eq, one_mul]
  simp only [_pack]
  rw [if_neg (by rw [h1]; omega)]

/-- The packed word restricted to the field mask is the shifted data. -/
theorem pack_and_field_mask
    (data size offset old : ℕ) (hdata : data < 2 ^ size) (hso : offset + size ≤ 16) :
    ((data <<< offset) ||| (old &&& (((1 <<< word_size) - 1) ^^^ (((1 <<< size) - 1) <<< offset))))
      &&& (((1 <<< size) - 1) <<< offset) = data <<< offset := by
  apply Nat.eq_of_testBit_eq
  intro i
  rw [Nat.testBit_and, Nat.testBit_or, Nat.testBit_and,
    mask_compl_testBit size offset i hso, mask_testBit]
  by_cases hge : offset ≤ i
  · by_cases hlt : i - offset < size
    · have h16 : i < 16 := by omega
      simp [hge, hlt, h16, Nat.testBit_shiftLeft]
    · have : (data <<< offset).testBit i = false := by
        rw [Nat.testBit_shiftLeft]
        simp only [ge_iff_le, hge, decide_True, Bool.true_and]
        exact testBit_of_lt_two_pow hdata (by omega)
      simp [hge, hlt, this]
  · have : (data <<< offset).testBit i = false := by
      rw [Nat.testBit_shiftLeft]
      simp [hge]
    simp [hge, this]

/-- The packed word agrees with the old register contents outside the
field mask. -/
theorem pack_and_compl_mask
    (data size offset old : ℕ) (hdata : data < 2 ^ size)
    (hso : offset + size ≤ 16) (hold : old < 2 ^ 16) :
    ((data <<< offset) ||| (old &&& (((1 <<< word_size) - 1) ^^^ (((1 <<< size) - 1) <<< offset))))
      &&& (((1 <<< word_size) - 1) ^^^ (((1 <<< size) - 1) <<< offset)) =
      old &&& (((1 <<< word_size) - 1) ^^^ (((1 <<< size) - 1) <<< offset)) := by
  apply Nat.eq_of_testBit_eq
  intro i
  rw [Nat.testBit_and, Nat.testBit_or, Nat.testBit_and,
    mask_compl_testBit size offset i hso]
  by_cases h16 : i < 16
  · by_cases hfield : offset ≤ i ∧ i - offset < size
    · simp [hfield.1, hfield.2, h16]
    · have hdx : (data <<< offset).testBit i = false := by
        rw [Nat.testBit_shiftLeft]
        by_cases hge : offset ≤ i
        · simp only [ge_iff_le, hge, decide_True, Bool.true_and]
          exact testBit_of_lt_two_pow hdata (by omega)
        · simp [hge]
      by_cases hge : offset ≤ i
      · have hlt : ¬ i - offset < size := fun h => hfield ⟨hge, h⟩
        simp [hge, hlt, h16, hdx]
      · simp [hge, h16, hdx]
  · have hox : old.testBit i = false := testBit_of_lt_two_pow hold (by omega)
    simp [h16, hox]

/-- Extraction recovers the data packed into the field. -/
theorem pack_extract
    (data size offset old : ℕ) (hdata : data < 2 ^ size) (hso : offset + size ≤ 16) :
    _extract ((data <<< offset) |||
        (old &&& (((1 <<< word_size) - 1) ^^^ (((1 <<< size) - 1) <<< offset))))
      size offset = data := by
  rw [extract_eq]
  apply Nat.eq_of_testBit_eq
  intro i
  rw [Nat.testBit_mod_two_pow, Nat.testBit_shiftRight, Nat.testBit_or,
    Nat.testBit_and, mask_compl_testBit size offset (offset + i) hso,
    Nat.testBit_shiftLeft]
  by_cases hlt : i < size
  · have h16 : offset + i < 16 := by omega
    have hge : offset ≤ offset + i := Nat.le_add_right _ _
    have : offset + i - offset = i := by omega
    simp [hlt, h16, hge, this]
  · have : data.testBit i = false := testBit_of_lt_two_pow hdata (by omega)
    simp [hlt, this]

/-- C1: read–modify–write packing touches exactly the field's bits.
For `data < 2^size`, `offset+size ≤ 16` and `old < 2^16`, `_pack` succeeds
with a result `r` such that, with `mask = ((1<<size)-1)<<offset` and `maskC`
the source's 16-bit complement of `mask`: `r &&& mask = data <<< offset`,
`r &&& maskC = old &&& maskC` (all bits outside the field unchanged), and
`_extract r size offset = data`.  (`r & ~mask` over unbounded Python ints
agrees with `r &&& maskC` here because `r, old < 2^16`.) -/
theorem pack_preserves_untouched_bits
    (data size offset old : ℕ) (hdata : data < 2 ^ size)
    (hso : offset + size ≤ 16) (hold : old < 2 ^ 16) :
    ∃ r : ℕ,
      _pack data size offset old = .ok r ∧
      r &&& (((1 <<< size) - 1) <<< offset) = data <<< offset ∧
      r &&& (((1 <<< word_size) - 1) ^^^ (((1 <<< size) - 1) <<< offset)) =
        old &&& (((1 <<< word_size) - 1) ^^^ (((1 <<< size) - 1) <<< offset)) ∧
      _extract r size offset = data :=
  ⟨_, pack_ok data size offset old hdata,
    pack_and_field_mask data size offset old hdata hso,
    pack_and_compl_mask data size offset old hdata hso hold,
    pack_extract data size offset old hdata hso⟩

/-- C1 witness at `data = 5`, `size = 3`, `offset = 4`, `old = 0xABCD`. -/
theorem pack_preserves_untouched_bits_witness :
    ∃ r : ℕ,
      _pack 5 3 4 0xABCD = .ok r ∧
      r &&& (((1 <<< 3) - 1) <<< 4) = 5 <<< 4 ∧
      r &&& (((1 <<< word_size) - 1) ^^^ (((1 <<< 3) - 1) <<< 4)) =
        0xABCD &&& (((1 <<< word_size) - 1) ^^^ (((1 <<< 3) - 1) <<< 4)) ∧
      _extract r 3 4 = 5 :=
  pack_preserves_untouched_bits 5 3 4 0xABCD (by norm_num) (by norm_num) (by norm_num)

/-! ### C2: two's-complement conversions -/

theorem int_land_mask (a : ℤ) (w : ℕ) (h0 : 0 ≤ a) (hlt : a < 2 ^ w) :
    Int.land a (2 ^ w - 1) = a := by
  obtain ⟨n, rfl⟩ := Int.eq_ofNat_of_zero_le h0
  have hcast : ((2 ^ w - 1 : ℕ) : ℤ) = 2 ^ w - 1 := by
    push_cast [Nat.cast_sub (Nat.one_le_two_pow)]
    ring
  rw [← hcast]
  have hland : Int.land (n : ℤ) ((2 ^ w - 1 : ℕ) : ℤ) = ((n &&& (2 ^ w - 1) : ℕ) : ℤ) := rfl
  rw [hland, Nat.and_pow_two_sub_one_eq_mod]
  have hn : n < 2 ^ w := by exact_mod_cast hlt
  rw [Nat.mod_eq_of_lt hn]

theorem int_two_pow_succ_half (w : ℕ) (hw : 1 ≤ w) :
    (2 : ℤ) ^ w = 2 * 2 ^ (w - 1) := by
  conv_lhs => rw [show w = w - 1 + 1 by omega]
  rw [pow_succ]
  ring

/-- Clamp-then-offset characterisation of `_signedToTwosComplement`. -/
theorem signedToTwos_eq (w : ℕ) (hw : 1 ≤ w) (s : ℤ) :
    _signedToTwosComplement s w =
      (let c := max (-(2 ^ (w - 1))) (min s (2 ^ (w - 1) - 1))
       if c < 0 then c + 2 ^ w else c) := by
  have hpow : (2 : ℤ) ^ w = 2 * 2 ^ (w - 1) := int_two_pow_succ_half w hw
  have hhalf : (0 : ℤ) < 2 ^ (w - 1) := by positivity
  simp only [_signedToTwosComplement]
  by_cases h1 : s > 2 ^ (w - 1) - 1
  · rw [if_pos h1]
    have hmin : min s (2 ^ (w - 1) - 1) = 2 ^ (w - 1) - 1 := min_eq_right (by omega)
    have hmax : max (-(2 ^ (w - 1))) (2 ^ (w - 1) - 1 : ℤ) = 2 ^ (w - 1) - 1 :=
      max_eq_right (by omega)
    simp only [hmin, hmax]
    rw [if_neg (by omega), if_neg (by omega)]
  · rw [if_neg h1]
    by_cases h2 : s < -(2 ^ (w - 1))
    · rw [if_pos h2]
      have hneg : (-(2 ^ (w - 1)) : ℤ) < 0 := by omega
      rw [if_pos hneg]
      have hmin : min s (2 ^ (w - 1) - 1) = s := min_eq_left (by omega)
      have hmax : max (-(2 ^ (w - 1))) s = -(2 ^ (w - 1)) := max_eq_left (by omega)
      simp only [hmin, hmax, hneg, if_pos]
      exact int_land_mask _ w (by omega) (by omega)
    · rw [if_neg h2]
      have hmin : min s (2 ^ (w - 1) - 1) = s := min_eq_left (by omega)
      have hmax : max (-(2 ^ (w - 1))) s = s := max_eq_right (by omega)
      simp only [hmin, hmax]
      by_cases h3 : s < 0
      · rw [if_pos h3, if_pos h3]
        exact int_land_mask _ w (by omega) (by omega)
      · rw [if_neg h3, if_neg h3]

/-- Offset characterisation of `_twosComplementToSigned` under its
asserted precondition. -/
theorem twosToSigned_eq (w : ℕ) (b : ℕ) (hb : b ≤ 2 ^ w - 1) :
    _twosComplementToSigned b w =
      .ok (if b ≥ 2 ^ (w - 1) then (b : ℤ) - 2 ^ w else (b : ℤ)) := by
  unfold _twosComplementToSigned
  rw [if_pos hb]
  by_cases h : b ≥ 2 ^ (w - 1)
  · rw [if_pos h, if_pos h]
  · rw [if_neg h, if_neg h]

/-- C2: `_signedToTwosComplement` clamps into
`[-2^(w-1), 2^(w-1)-1]` and then adds `2^w` to negative values (the
source's final `&= 2**w-1` is the identity there, and clamping prints a
warning instead of raising), and `_twosComplementToSigned` subtracts
`2^w` from values `≥ 2^(w-1)` under its asserted precondition; the four
concrete evaluations of the claim hold at `w = 16`. -/
theorem twos_complement_conversions (w : ℕ) (hw : 1 ≤ w) :
    (∀ s : ℤ, _signedToTwosComplement s w =
      (let c := max (-(2 ^ (w - 1))) (min s (2 ^ (w - 1) - 1))
       if c < 0 then c + 2 ^ w else c)) ∧
    (∀ b : ℕ, b ≤ 2 ^ w - 1 →
      _twosComplementToSigned b w =
        .ok (if b ≥ 2 ^ (w - 1) then (b : ℤ) - 2 ^ w else (b : ℤ))) ∧
    _signedToTwosComplement (-1) 16 = 0xFFFF ∧
    _signedToTwosComplement 0 16 = 0 ∧
    _twosComplementToSigned 0xFFFF 16 = .ok (-1) ∧
    _signedToTwosComplement (2 ^ 15) 16 = 2 ^ 15 - 1 :=
  ⟨signedToTwos_eq w hw, twosToSigned_eq w, by decide, by decide, by decide, by decide⟩

/-- C2 witness at `w = 16`, `s = -1`, `b = 0x8000`. -/
theorem twos_complement_conversions_witness :
    _signedToTwosComplement (-1) 16 =
      (let c := max (-(2 ^ (16 - 1))) (min (-1 : ℤ) (2 ^ (16 - 1) - 1))
       if c < 0 then c + 2 ^ 16 else c) ∧
    _twosComplementToSigned 0x8000 16 =
      .ok (if 0x8000 ≥ 2 ^ (16 - 1) then (0x8000 : ℤ) - 2 ^ 16 else (0x8000 : ℤ)) :=
  ⟨(twos_complement_conversions 16 (by norm_num)).1 (-1),
   (twos_complement_conversions 16 (by norm_num)).2.1 0x8000 (by norm_num)⟩

/-! ### C6: the PEC checksum (`_pec`)

`_pec` is embedded exactly as written: the accumulator is an unbounded
integer, the conditional xor with `poly = 0x07` tests bit 8 after the left
shift (leaving stale high bits in place, harmlessly), and only the final
result is masked to 8 bits.  `cleanCycle`/`cleanByte`/`cleanPec` are the
reduction of the same computation to 8-bit residues, proved equal to
`_pec` below. -/

/-- One inner cycle of `_pec`: `crc <<= 1; if (crc & 0x100): crc ^= poly`
with `poly = 0x07` (`x^8 + x^2 + x^1 + 1`, `x^8` term discarded). -/
def pecCycle (crc : ℕ) : ℕ :=
  let c := crc <<< 1
  if c &&& 0x100 ≠ 0 then c ^^^ 0x07 else c

/-- Per-byte step of `_pec`: `crc ^= byte` followed by eight cycles. -/
def pecByteStep (crc byte : ℕ) : ℕ :=
  pecCycle^[8] (crc ^^^ byte)

/-- `_pec(self, byteList)`: fold the per-byte step over the ordered list
starting from `crc = 0` and return `int(crc & 0xFF)`. -/
def _pec (byteList : List ℕ) : ℕ :=
  (byteList.foldl pecByteStep 0) &&& 0xFF

/-- `pecCycle` reduced to 8-bit residues. -/
def cleanCycle (c : ℕ) : ℕ := pecCycle c % 256

/-- `pecByteStep` reduced to 8-bit residues. -/
def cleanByte (c b : ℕ) : ℕ := cleanCycle^[8] (c ^^^ b)

/-- `_pec` reduced to 8-bit residues. -/
def cleanPec (bs : List ℕ) : ℕ := bs.foldl cleanByte 0

theorem xor_mod_two_pow (x d n : ℕ) :
    (x ^^^ d) % 2 ^ n = ((x % 2 ^ n) ^^^ (d % 2 ^ n)) % 2 ^ n := by
  apply Nat.eq_of_testBit_eq
  intro i
  rw [Nat.testBit_mod_two_pow, Nat.testBit_mod_two_pow, Nat.testBit_xor,
    Nat.testBit_xor, Nat.testBit_mod_two_pow, Nat.testBit_mod_two_pow]
  by_cases h : i < n <;> simp [h]

theorem and_256_ne (x : ℕ) : (x &&& 0x100 ≠ 0) ↔ x.testBit 8 = true := by
  rw [show (0x100 : ℕ) = 2 ^ 8 from rfl, Nat.and_two_pow]
  cases h : x.testBit 8 <;> simp

/-- The low 8 bits of `pecCycle`'s output depend only on the low 8 bits of
its input. -/
theorem pecCycle_mod (c : ℕ) : pecCycle c % 256 = pecCycle (c % 256) % 256 := by
  simp only [pecCycle]
  have hcond : ((c <<< 1) &&& 0x100 ≠ 0) ↔ (((c % 256) <<< 1) &&& 0x100 ≠ 0) := by
    rw [and_256_ne, and_256_ne, Nat.testBit_shiftLeft, Nat.testBit_shiftLeft]
    rw [show (256 : ℕ) = 2 ^ 8 from rfl, Nat.testBit_mod_two_pow]
    norm_num
  have hshift : ∀ y : ℕ, y <<< 1 = y * 2 := fun y => Nat.shiftLeft_eq y 1
  by_cases h : (c <<< 1) &&& 0x100 ≠ 0
  · rw [if_pos h, if_pos (hcond.mp h)]
    rw [show (256 : ℕ) = 2 ^ 8 from rfl, xor_mod_two_pow,
      xor_mod_two_pow ((c % 2 ^ 8) <<< 1) 7 8]
    congr 2
    rw [hshift, hshift]
    omega
  · rw [if_neg h, if_neg (fun hx => h (hcond.mpr hx))]
    rw [hshift, hshift]
    omega

theorem pecCycle_iterate_mod (n : ℕ) (c : ℕ) :
    (pecCycle^[n] c) % 256 = cleanCycle^[n] (c % 256) := by
  induction n generalizing c with
  | zero => rfl
  | succ n ih =>
    rw [Function.iterate_succ_apply, Function.iterate_succ_apply, ih]
    congr 1
    rw [cleanCycle, pecCycle_mod]

theorem cleanCycle_lt (c : ℕ) : cleanCycle c < 256 :=
  Nat.mod_lt _ (by norm_num)

theorem cleanCycle_iterate_lt (n : ℕ) (c : ℕ) (hc : c < 256) :
    cleanCycle^[n] c < 256 := by
  induction n generalizing c with
  | zero => exact hc
  | succ n ih => rw [Function.iterate_succ_apply]; exact ih _ (cleanCycle_lt c)

theorem cleanByte_lt (c b : ℕ) (hc : c < 256) (hb : b < 256) :
    cleanByte c b < 256 := by
  unfold cleanByte
  exact cleanCycle_iterate_lt 8 _
    (by rw [show (256 : ℕ) = 2 ^ 8 from rfl] at hc hb ⊢; exact Nat.xor_lt_two_pow hc hb)

theorem pecByteStep_mod (c b : ℕ) (hb : b < 256) :
    pecByteStep c b % 256 = cleanByte (c % 256) b := by
  unfold pecByteStep cleanByte
  rw [pecCycle_iterate_mod]
  congr 1
  have hb8 : b < 2 ^ 8 := hb
  rw [show (256 : ℕ) = 2 ^ 8 from rfl, xor_mod_two_pow, Nat.mod_eq_of_lt hb8]
  exact Nat.mod_eq_of_lt
    (Nat.xor_lt_two_pow (Nat.mod_lt _ (by norm_num)) hb8)

theorem foldl_pecByteStep_mod (bs : List ℕ) (c : ℕ) (hbs : ∀ b ∈ bs, b < 256) :
    (bs.foldl pecByteStep c) % 256 = bs.foldl cleanByte (c % 256) := by
  induction bs generalizing c with
  | nil => rfl
  | cons b bs ih =>
    simp only [List.foldl_cons]
    rw [ih _ (fun x hx => hbs x (List.mem_cons_of_mem b hx)),
      pecByteStep_mod c b (hbs b (List.mem_cons_self b bs))]

/-- `_pec` agrees with its 8-bit-residue reduction on byte lists. -/
theorem pec_eq_cleanPec (bs : List ℕ) (hbs : ∀ b ∈ bs, b < 256) :
    _pec bs = cleanPec bs := by
  unfold _pec cleanPec
  rw [show (0xFF : ℕ) = 2 ^ 8 - 1 from rfl, Nat.and_pow_two_sub_one_eq_mod]
  simpa using foldl_pecByteStep_mod bs 0 hbs

/-- `pecCycle` as an unconditional xor: the tested bit 8 of the shifted
accumulator is bit 7 of the input. -/
theorem pecCycle_eq (x : ℕ) :
    pecCycle x = (x <<< 1) ^^^ (if x.testBit 7 then 7 else 0) := by
  simp only [pecCycle]
  have hcond : ((x <<< 1) &&& 0x100 ≠ 0) ↔ x.testBit 7 = true := by
    rw [and_256_ne, Nat.testBit_shiftLeft]
    norm_num
  by_cases h : x.testBit 7
  · rw [if_pos (hcond.mpr h), if_pos h]
  · rw [if_neg (fun hc => h (hcond.mp hc)), if_neg h, Nat.xor_zero]

theorem xor_mod_256 (x y : ℕ) : (x ^^^ y) % 256 = (x % 256) ^^^ (y % 256) := by
  rw [show (256 : ℕ) = 2 ^ 8 from rfl, xor_mod_two_pow]
  exact Nat.mod_eq_of_lt
    (Nat.xor_lt_two_pow (Nat.mod_lt _ (by norm_num)) (Nat.mod_lt _ (by norm_num)))

theorem xor_shiftLeft_distrib (x y n : ℕ) :
    (x ^^^ y) <<< n = (x <<< n) ^^^ (y <<< n) := by
  apply Nat.eq_of_testBit_eq
  intro i
  rw [Nat.testBit_shiftLeft, Nat.testBit_xor, Nat.testBit_xor, Nat.testBit_shiftLeft,
    Nat.testBit_shiftLeft]
  by_cases h : n ≤ i <;> simp [h, ge_iff_le]

/-- `cleanCycle` is GF(2)-linear. -/
theorem cleanCycle_xor (a b : ℕ) :
    cleanCycle (a ^^^ b) = cleanCycle a ^^^ cleanCycle b := by
  have hlc : ∀ x y z : ℕ, x ^^^ (y ^^^ z) = y ^^^ (x ^^^ z) := fun x y z => by
    rw [← Nat.xor_assoc, Nat.xor_comm x y, Nat.xor_assoc]
  simp only [cleanCycle, pecCycle_eq]
  rw [xor_shiftLeft_distrib, Nat.testBit_xor, ← xor_mod_256]
  congr 1
  cases ha : a.testBit 7 <;> cases hb : b.testBit 7 <;>
    simp [Nat.xor_assoc, Nat.xor_comm, hlc]

set_option maxRecDepth 10000 in
/-- `cleanCycle` has trivial kernel on 8-bit values. -/
theorem cleanCycle_ker : ∀ a : Fin 256, cleanCycle a.val = 0 → a.val = 0 := by decide

theorem cleanCycle_inj {a b : ℕ} (ha : a < 256) (hb : b < 256)
    (h : cleanCycle a = cleanCycle b) : a = b := by
  have hxlt : a ^^^ b < 256 := by
    rw [show (256 : ℕ) = 2 ^ 8 from rfl] at ha hb ⊢
    exact Nat.xor_lt_two_pow ha hb
  have hker : cleanCycle (a ^^^ b) = 0 := by
    rw [cleanCycle_xor, h, Nat.xor_self]
  exact Nat.xor_eq_zero.mp (cleanCycle_ker ⟨a ^^^ b, hxlt⟩ hker)

theorem cleanCycle_iterate_inj (n : ℕ) :
    ∀ {a b : ℕ}, a < 256 → b < 256 →
      cleanCycle^[n] a = cleanCycle^[n] b → a = b := by
  induction n with
  | zero => intro a b _ _ h; exact h
  | succ n ih =>
    intro a b ha hb h
    rw [Function.iterate_succ_apply, Function.iterate_succ_apply] at h
    exact cleanCycle_inj ha hb (ih (cleanCycle_lt a) (cleanCycle_lt b) h)

theorem cleanByte_inj {c1 c2 : ℕ} (b : ℕ) (h1 : c1 < 256) (h2 : c2 < 256)
    (hb : b < 256) (h : cleanByte c1 b = cleanByte c2 b) : c1 = c2 := by
  have hxor : ∀ c : ℕ, c < 256 → c ^^^ b < 256 := fun c hc => by
    rw [show (256 : ℕ) = 2 ^ 8 from rfl] at hc hb ⊢
    exact Nat.xor_lt_two_pow hc hb
  have := cleanCycle_iterate_inj 8 (hxor c1 h1) (hxor c2 h2) h
  have h2' := congrArg (· ^^^ b) this
  simpa [Nat.xor_cancel_right] using h2'

theorem foldl_cleanByte_lt (bs : List ℕ) (c : ℕ) (hc : c < 256)
    (hbs : ∀ b ∈ bs, b < 256) : bs.foldl cleanByte c < 256 := by
  induction bs generalizing c with
  | nil => exact hc
  | cons b bs ih =>
    simp only [List.foldl_cons]
    exact ih _ (cleanByte_lt c b hc (hbs b (List.mem_cons_self b bs)))
      (fun x hx => hbs x (List.mem_cons_of_mem b hx))

theorem foldl_cleanByte_inj (bs : List ℕ) :
    ∀ {c1 c2 : ℕ}, c1 < 256 → c2 < 256 → (∀ b ∈ bs, b < 256) → c1 ≠ c2 →
      bs.foldl cleanByte c1 ≠ bs.foldl cleanByte c2 := by
  induction bs with
  | nil => intro c1 c2 _ _ _ hne; simpa using hne
  | cons b bs ih =>
    intro c1 c2 h1 h2 hbs hne
    simp only [List.foldl_cons]
    have hb : b < 256 := hbs b (List.mem_cons_self b bs)
    exact ih (cleanByte_lt c1 b h1 hb) (cleanByte_lt c2 b h2 hb)
      (fun x hx => hbs x (List.mem_cons_of_mem b hx))
      (fun hstep => hne (cleanByte_inj b h1 h2 hb hstep))

theorem xor_cancel_left_nat (c x : ℕ) : c ^^^ (c ^^^ x) = x := by
  rw [← Nat.xor_assoc, Nat.xor_self, Nat.zero_xor]

theorem two_pow_lt_256 {j : ℕ} (hj : j < 8) : 2 ^ j < 256 :=
  lt_of_le_of_lt (Nat.pow_le_pow_right (by norm_num) (by omega)) (by norm_num : (2:ℕ)^7 < 256)

theorem xor_two_pow_ne (b j : ℕ) : b ^^^ 2 ^ j ≠ b := by
  intro h
  have h0 : b ^^^ (b ^^^ 2 ^ j) = b ^^^ b := congrArg (b ^^^ ·) h
  rw [xor_cancel_left_nat, Nat.xor_self] at h0
  exact (Nat.pos_pow_of_pos j (by norm_num)).ne' h0

/-- Flipping bit `j` of byte `i` changes the folded 8-bit CRC state. -/
theorem cleanFold_flip (j : ℕ) (hj : j < 8) :
    ∀ (bs : List ℕ) (i : ℕ) (hi : i < bs.length) (c : ℕ), c < 256 →
      (∀ b ∈ bs, b < 256) →
      (bs.set i ((bs.get ⟨i, hi⟩) ^^^ 2 ^ j)).foldl cleanByte c ≠
        bs.foldl cleanByte c := by
  intro bs
  induction bs with
  | nil => intro i hi; simp at hi
  | cons b bs ih =>
    intro i hi c hc hbs
    have hb : b < 256 := hbs b (List.mem_cons_self b bs)
    have hbs' : ∀ x ∈ bs, x < 256 := fun x hx => hbs x (List.mem_cons_of_mem b hx)
    cases i with
    | zero =>
      simp only [List.set_cons_zero, List.get_cons_zero, List.foldl_cons]
      have hflip : b ^^^ 2 ^ j < 256 := by
        rw [show (256 : ℕ) = 2 ^ 8 from rfl] at hb ⊢
        exact Nat.xor_lt_two_pow hb (two_pow_lt_256 hj)
      refine foldl_cleanByte_inj bs (cleanByte_lt c _ hc hflip)
        (cleanByte_lt c b hc hb) hbs' ?_
      intro hstep
      have hxeq : c ^^^ (b ^^^ 2 ^ j) = c ^^^ b := by
        have hl : c ^^^ (b ^^^ 2 ^ j) < 256 := by
          rw [show (256 : ℕ) = 2 ^ 8 from rfl] at hc hflip ⊢
          exact Nat.xor_lt_two_pow hc hflip
        have hr : c ^^^ b < 256 := by
          rw [show (256 : ℕ) = 2 ^ 8 from rfl] at hc hb ⊢
          exact Nat.xor_lt_two_pow hc hb
        exact cleanCycle_iterate_inj 8 hl hr hstep
      have heq2 : c ^^^ (c ^^^ (b ^^^ 2 ^ j)) = c ^^^ (c ^^^ b) :=
        congrArg (c ^^^ ·) hxeq
      rw [xor_cancel_left_nat, xor_cancel_left_nat] at heq2
      exact xor_two_pow_ne b j heq2
    | succ i =>
      simp only [List.set_cons_succ, List.get_cons_succ, List.foldl_cons]
      exact ih i (by simpa using hi) (cleanByte c b) (cleanByte_lt c b hc hb) hbs'

/-- C6: `_pec` is a deterministic function of the byte list (it is a pure
fold of the per-byte xor-and-eight-cycles step), its result always lies in
`[0, 255]`, it evaluates to the CRC-8/poly-0x07 reference value `0xF1` on
the vector `[0x12, 0x34]`, and flipping any single bit of any input byte
changes the checksum. -/
theorem pec_checksum_properties :
    (∀ bs : List ℕ, _pec bs ≤ 255) ∧
    _pec [0x12, 0x34] = 0xF1 ∧
    (∀ (bs : List ℕ) (i j : ℕ) (hi : i < bs.length), j < 8 →
      (∀ b ∈ bs, b < 256) →
      _pec (bs.set i ((bs.get ⟨i, hi⟩) ^^^ 2 ^ j)) ≠ _pec bs) := by
  refine ⟨fun bs => Nat.and_le_right, by decide, ?_⟩
  intro bs i j hi hj hbs
  have hset : ∀ b ∈ bs.set i ((bs.get ⟨i, hi⟩) ^^^ 2 ^ j), b < 256 := by
    intro x hx
    rcases List.mem_or_eq_of_mem_set hx with h | h
    · exact hbs x h
    · subst h
      have hmem : bs.get ⟨i, hi⟩ < 256 := hbs _ (List.get_mem bs i hi)
      rw [show (256 : ℕ) = 2 ^ 8 from rfl] at hmem ⊢
      exact Nat.xor_lt_two_pow hmem (two_pow_lt_256 hj)
  rw [pec_eq_cleanPec _ hset, pec_eq_cleanPec bs hbs]
  exact cleanFold_flip j hj bs i hi 0 (by norm_num) hbs

/-- C6 witness: flipping bit 0 of the first byte of `[0x12, 0x34]` changes
the checksum, and the checksum of that vector is bounded by 255. -/
theorem pec_checksum_properties_witness :
    _pec [0x12, 0x34] ≤ 255 ∧
    _pec (([0x12, 0x34] : List ℕ).set 0
      ((([0x12, 0x34] : List ℕ).get ⟨0, by norm_num⟩) ^^^ 2 ^ 0)) ≠ _pec [0x12, 0x34] :=
  ⟨pec_checksum_properties.1 [0x12, 0x34],
   pec_checksum_properties.2.2 [0x12, 0x34] 0 0 (by norm_num) (by norm_num)
     (by intro b hb; fin_cases hb <;> norm_num)⟩

/-! ### C7/C8: DC590 transport response processing

Each `_read_*` primitive writes a framed command over the serial port and
then consumes a fixed-length response `ret` (a character string); any
bytes still pending afterwards are modelled by `extra`.  Raising an
exception is modelled by `Except.error`; `int(s, 16)` failing on non-hex
characters is `BusErr.valueError`. -/

/-- Transport-layer failures.  `notAcked`/`offline`/`long` carry the raw
response text (and the drained extra bytes) exactly as the source
interpolates them into the exception message. -/
inductive BusErr
  | short (ret : List Char)
  | notAcked (ret : List Char) (extra : List Char)
  | offline (ret : List Char) (extra : List Char)
  | long (ret : List Char) (extra : List Char)
  | pecMismatch
  | valueError
  deriving Repr, DecidableEq

/-- One hex digit, as accepted by Python's `int(c, 16)`: decimal digits
(codes 48–57), upper-case `A`–`F` (65–70) and lower-case `a`–`f`
(97–102). -/
def hexDigit (c : Char) : Option ℕ :=
  let n := c.toNat
  if 48 ≤ n ∧ n ≤ 57 then some (n - 48)
  else if 65 ≤ n ∧ n ≤ 70 then some (n - 55)
  else if 97 ≤ n ∧ n ≤ 102 then some (n - 87)
  else none

/-- `int(c1 ++ c2, 16)` on a two-character slice. -/
def parseHex2 (c1 c2 : Char) : Option ℕ := do
  let h ← hexDigit c1
  let l ← hexDigit c2
  pure (h * 16 + l)

/-- `_read_addr`: `(addr_7bit << 1) + 1`. -/
def _read_addr (addr_7bit : ℕ) : ℕ := (addr_7bit <<< 1) + 1

/-- `_write_addr`: `addr_7bit << 1`. -/
def _write_addr (addr_7bit : ℕ) : ℕ := addr_7bit <<< 1

/-- `_word`: `((high_byte & 0xFF) << 8) + (low_byte & 0xFF)`. -/
def _word (low_byte high_byte : ℕ) : ℕ :=
  ((high_byte &&& 0xFF) <<< 8) + (low_byte &&& 0xFF)

/-- Response processing of `_read_word_nopec`: expect 4 hex characters,
classify `'N'` (not acknowledged), `'X'` (EEPROM detection failed /
communications disabled) and trailing bytes (long response) before parsing
the two data bytes.  `addr_7bit`/`command_code` appear only in the framed
command, not in the response checks. -/
def _read_word_nopec (addr_7bit command_code : ℕ) (ret extra : List Char) :
    Except BusErr ℕ :=
  if ret.length ≠ 4 then .error (.short ret)
  else if 'N' ∈ ret then .error (.notAcked ret extra)
  else if 'X' ∈ ret then .error (.offline ret extra)
  else if extra ≠ [] then .error (.long ret extra)
  else
    match parseHex2 (ret.getD 0 ' ') (ret.getD 1 ' '),
        parseHex2 (ret.getD 2 ' ') (ret.getD 3 ' ') with
    | some low, some high => .ok (_word low high)
    | _, _ => .error .valueError

/-- Response processing of `_read_word_pec`: expect 6 hex characters; the
data bytes and the trailing PEC byte are parsed and the PEC compared
*before* the `'N'`/`'X'` sentinel and long-response checks. -/
def _read_word_pec (addr_7bit command_code : ℕ) (ret extra : List Char) :
    Except BusErr ℕ :=
  if ret.length ≠ 6 then .error (.short ret)
  else
    match parseHex2 (ret.getD 0 ' ') (ret.getD 1 ' ') with
    | none => .error .valueError
    | some d0 =>
      match parseHex2 (ret.getD 2 ' ') (ret.getD 3 ' ') with
      | none => .error .valueError
      | some d1 =>
        match parseHex2 (ret.getD 4 ' ') (ret.getD 5 ' ') with
        | none => .error .valueError
        | some p =>
          if p ≠ _pec [_write_addr addr_7bit, command_code,
              _read_addr addr_7bit, d0, d1] then .error .pecMismatch
          else if 'N' ∈ ret then .error (.notAcked ret extra)
          else if 'X' ∈ ret then .error (.offline ret extra)
          else if extra ≠ [] then .error (.long ret extra)
          else .ok (_word d0 d1)

/-- Response processing of `_read_byte_pec`: expect 4 hex characters; the
data byte and PEC byte are parsed and the PEC compared before the
sentinel and long-response checks. -/
def _read_byte_pec (addr_7bit command_code : ℕ) (ret extra : List Char) :
    Except BusErr ℕ :=
  if ret.length ≠ 4 then .error (.short ret)
  else
    match parseHex2 (ret.getD 0 ' ') (ret.getD 1 ' ') with
    | none => .error .valueError
    | some d0 =>
      match parseHex2 (ret.getD 2 ' ') (ret.getD 3 ' ') with
      | none => .error .valueError
      | some p =>
        if p ≠ _pec [_write_addr addr_7bit, command_code,
            _read_addr addr_7bit, d0] then .error .pecMismatch
        else if 'N' ∈ ret then .error (.notAcked ret extra)
        else if 'X' ∈ ret then .error (.offline ret extra)
        else if extra ≠ [] then .error (.long ret extra)
        else .ok d0

/-- C7: in the PEC-checked reads the appended response byte must equal the
checksum recomputed over the address bytes, command code and returned
data: a parsed PEC byte that differs yields the PEC-mismatch exception
(for word and byte reads alike, whatever the pending `extra` bytes), the
verification sits before the not-acked/offline sentinel interpretation (a
not-acked classification is only reachable with a verified PEC), and a
successful word read certifies that the received PEC byte equals
`_pec([write_addr, command, read_addr, data0, data1])`. -/
theorem pec_read_verifies_checksum_first :
    (∀ (addr_7bit command_code : ℕ) (ret extra : List Char) (d0 d1 p : ℕ),
      ret.length = 6 →
      parseHex2 (ret.getD 0 ' ') (ret.getD 1 ' ') = some d0 →
      parseHex2 (ret.getD 2 ' ') (ret.getD 3 ' ') = some d1 →
      parseHex2 (ret.getD 4 ' ') (ret.getD 5 ' ') = some p →
      p ≠ _pec [_write_addr addr_7bit, command_code, _read_addr addr_7bit, d0, d1] →
      _read_word_pec addr_7bit command_code ret extra = .error .pecMismatch) ∧
    (∀ (addr_7bit command_code : ℕ) (ret extra : List Char) (d0 p : ℕ),
      ret.length = 4 →
      parseHex2 (ret.getD 0 ' ') (ret.getD 1 ' ') = some d0 →
      parseHex2 (ret.getD 2 ' ') (ret.getD 3 ' ') = some p →
      p ≠ _pec [_write_addr addr_7bit, command_code, _read_addr addr_7bit, d0] →
      _read_byte_pec addr_7bit command_code ret extra = .error .pecMismatch) ∧
    (∀ (addr_7bit command_code : ℕ) (ret extra r e : List Char),
      _read_word_pec addr_7bit command_code ret extra = .error (.notAcked r e) →
      ∃ d0 d1 : ℕ,
        parseHex2 (ret.getD 0 ' ') (ret.getD 1 ' ') = some d0 ∧
        parseHex2 (ret.getD 2 ' ') (ret.getD 3 ' ') = some d1 ∧
        parseHex2 (ret.getD 4 ' ') (ret.getD 5 ' ') =
          some (_pec [_write_addr addr_7bit, command_code, _read_addr addr_7bit, d0, d1])) ∧
    (∀ (addr_7bit command_code : ℕ) (ret extra : List Char) (w : ℕ),
      _read_word_pec addr_7bit command_code ret extra = .ok w →
      ∃ d0 d1 : ℕ,
        parseHex2 (ret.getD 0 ' ') (ret.getD 1 ' ') = some d0 ∧
        parseHex2 (ret.getD 2 ' ') (ret.getD 3 ' ') = some d1 ∧
        parseHex2 (ret.getD 4 ' ') (ret.getD 5 ' ') =
          some (_pec [_write_addr addr_7bit, command_code, _read_addr addr_7bit, d0, d1]) ∧
        w = _word d0 d1) := by
  refine ⟨?_, ?_, ?_, ?_⟩
  · intro addr_7bit command_code ret extra d0 d1 p hlen h0 h1 hp hne
    simp only [_read_word_pec]
    rw [if_neg (by omega), h0, h1, hp]
    exact if_pos hne
  · intro addr_7bit command_code ret extra d0 p hlen h0 hp hne
    simp only [_read_byte_pec]
    rw [if_neg (by omega), h0, hp]
    exact if_pos hne
  · intro addr_7bit command_code ret extra r e h
    simp only [_read_word_pec] at h
    split at h
    · exact absurd h (by simp)
    · split at h
      next => exact absurd h (by simp)
      next d0 h0 =>
        split at h
        next => exact absurd h (by simp)
        next d1 h1 =>
          split at h
          next => exact absurd h (by simp)
          next p hp =>
            split at h
            next => exact absurd h (by simp)
            next hne =>
              push_neg at hne
              exact ⟨d0, d1, h0, h1, hne ▸ hp⟩
  · intro addr_7bit command_code ret extra w h
    simp only [_read_word_pec] at h
    split at h
    · exact absurd h (by simp)
    · split at h
      next => exact absurd h (by simp)
      next d0 h0 =>
        split at h
        next => exact absurd h (by simp)
        next d1 h1 =>
          split at h
          next => exact absurd h (by simp)
          next p hp =>
            split at h
            next => exact absurd h (by simp)
            next hne =>
              push_neg at hne
              split at h
              next => exact absurd h (by simp)
              next =>
                split at h
                next => exact absurd h (by simp)
                next =>
                  split at h
                  next => exact absurd h (by simp)
                  next =>
                    refine ⟨d0, d1, h0, h1, hne ▸ hp, ?_⟩
                    exact (Except.ok.inj h).symm

set_option maxRecDepth 10000 in
/-- C7 witness: a word-read response `"0000FF"` (wrong PEC, the correct
value is `0xE9`) is rejected with the PEC mismatch, the byte-read response
`"00FF"` likewise, and the correct-PEC response `"0000E9"` succeeds. -/
theorem pec_read_verifies_checksum_first_witness :
    _read_word_pec 0x09 0x00 ['0', '0', '0', '0', 'F', 'F'] [] =
      .error .pecMismatch ∧
    _read_byte_pec 0x09 0x00 ['0', '0', 'F', 'F'] [] = .error .pecMismatch ∧
    (∃ d0 d1 : ℕ,
      parseHex2 ((['0', '0', '0', '0', 'E', '9'] : List Char).getD 0 ' ')
          ((['0', '0', '0', '0', 'E', '9'] : List Char).getD 1 ' ') = some d0 ∧
      parseHex2 ((['0', '0', '0', '0', 'E', '9'] : List Char).getD 2 ' ')
          ((['0', '0', '0', '0', 'E', '9'] : List Char).getD 3 ' ') = some d1 ∧
      parseHex2 ((['0', '0', '0', '0', 'E', '9'] : List Char).getD 4 ' ')
          ((['0', '0', '0', '0', 'E', '9'] : List Char).getD 5 ' ') =
        some (_pec [_write_addr 0x09, 0x00, _read_addr 0x09, d0, d1]) ∧
      (0 : ℕ) = _word d0 d1) :=
  ⟨pec_read_verifies_checksum_first.1 0x09 0x00 ['0', '0', '0', '0', 'F', 'F'] []
      0 0 0xFF (by decide) (by decide) (by decide) (by decide) (by decide),
   pec_read_verifies_checksum_first.2.1 0x09 0x00 ['0', '0', 'F', 'F'] []
      0 0xFF (by decide) (by decide) (by decide) (by decide),
   pec_read_verifies_checksum_first.2.2.2 0x09 0x00 ['0', '0', '0', '0', 'E', '9'] []
      0 (by decide)⟩

/-- C8: an expected-length unchecked word-read response containing the
not-acknowledge sentinel `'N'` raises the not-acked exception carrying the
raw response text; no numeric value is returned. -/
theorem nopec_read_not_acked
    (addr_7bit command_code : ℕ) (ret extra : List Char)
    (hlen : ret.length = 4) (hN : 'N' ∈ ret) :
    _read_word_nopec addr_7bit command_code ret extra =
      .error (.notAcked ret extra) := by
  simp only [_read_word_nopec]
  rw [if_neg (by omega), if_pos hN]

/-- C8 witness: the all-sentinel response `"NNNN"`. -/
theorem nopec_read_not_acked_witness :
    _read_word_nopec 0x09 0x00 ['N', 'N', 'N', 'N'] [] =
      .error (.notAcked ['N', 'N', 'N', 'N'] []) :=
  nopec_read_not_acked 0x09 0x00 ['N', 'N', 'N', 'N'] [] (by decide) (by decide)

/-! ### C3: the calibrated piecewise-linear transform
(`_transform_from_points`)

The source evaluates the calibration-point expression strings against the
constants dictionary and hands the resulting floats to
`scipy.UnivariateSpline(k=1, s=0)` — exact degree-1 interpolation through
the points, extrapolating the boundary segments.  The transform is
modelled over `ℚ` on the already-evaluated points. -/

/-- Linear interpolation through the two points `p` and `q`. -/
def affine (p q : ℚ × ℚ) (x : ℚ) : ℚ :=
  p.2 + (x - p.1) * (q.2 - p.2) / (q.1 - p.1)

/-- Degree-1 spline through points with ascending first coordinates:
interpolation between neighbours, linear extrapolation of the boundary
segments outside the point range (scipy `UnivariateSpline` with
`k = 1, s = 0`).  Fewer than two points is rejected by scipy; the model
returns 0 there. -/
def interp : List (ℚ × ℚ) → ℚ → ℚ
  | [], _ => 0
  | [_], _ => 0
  | [p, q], x => affine p q x
  | p :: q :: r :: rest, x =>
      if x ≤ q.1 then affine p q x else interp (q :: r :: rest) x

/-- `(raw, real) ↦ (real, raw)` — the coordinate swap the source performs
for the `unformat` direction. -/
def swapPoint (p : ℚ × ℚ) : ℚ × ℚ := (p.2, p.1)

/-- Python 2 `round`: nearest integer, halves away from zero. -/
def pyRound (q : ℚ) : ℤ := if 0 ≤ q then ⌊q + 1 / 2⌋ else ⌈q - 1 / 2⌉

/-- Stable insertion into a sorted-by-`key` list, placing the new element
after existing elements with the same key (Python's `sorted` is stable). -/
def insertByKey (key : ℚ × ℚ → ℚ) (a : ℚ × ℚ) : List (ℚ × ℚ) → List (ℚ × ℚ)
  | [] => [a]
  | b :: bs => if key a < key b then a :: b :: bs else b :: insertByKey key a bs

/-- `sorted(l, key=key)`. -/
def sortByKey (key : ℚ × ℚ → ℚ) : List (ℚ × ℚ) → List (ℚ × ℚ)
  | [] => []
  | a :: as => insertByKey key a (sortByKey key as)

/-- `_transform_from_points(xlist, ylist, "format")` on evaluated points:
sort by the raw coordinate, interpolate raw → real. -/
def transform_from_points_format (points : List (ℚ × ℚ)) : ℚ → ℚ :=
  fun x => interp (sortByKey Prod.fst points) x

/-- `_transform_from_points(xlist, ylist, "unformat")` on evaluated
points: sort by the real coordinate, interpolate real → raw with the
coordinates swapped, and round to the nearest integer
(`int(round(...))`). -/
def transform_from_points_unformat (points : List (ℚ × ℚ)) : ℚ → ℤ :=
  fun y => pyRound (interp ((sortByKey Prod.snd points).map swapPoint) y)

theorem pyRound_intCast (n : ℤ) : pyRound (n : ℚ) = n := by
  unfold pyRound
  by_cases h : (0 : ℚ) ≤ (n : ℚ)
  · rw [if_pos h, add_comm, Int.floor_add_int]
    norm_num
  · rw [if_neg h, show (n : ℚ) - 1 / 2 = (-(1 / 2) : ℚ) + n by ring, Int.ceil_add_int]
    norm_num

/-! #### Affine-segment lemmas -/

theorem affine_inv {p q : ℚ × ℚ} (h1 : p.1 ≠ q.1) (h2 : p.2 ≠ q.2) (x : ℚ) :
    affine (swapPoint p) (swapPoint q) (affine p q x) = x := by
  unfold affine swapPoint
  have hd1 : q.1 - p.1 ≠ 0 := sub_ne_zero.mpr (Ne.symm h1)
  have hd2 : q.2 - p.2 ≠ 0 := sub_ne_zero.mpr (Ne.symm h2)
  field_simp
  ring

theorem affine_le_iff {p q : ℚ × ℚ} (h1 : p.1 < q.1) (h2 : p.2 < q.2) (x : ℚ) :
    affine p q x ≤ q.2 ↔ x ≤ q.1 := by
  unfold affine
  have hd1 : (0 : ℚ) < q.1 - p.1 := by linarith
  have hd2 : (0 : ℚ) < q.2 - p.2 := by linarith
  rw [show p.2 + (x - p.1) * (q.2 - p.2) / (q.1 - p.1) ≤ q.2 ↔
      (x - p.1) * (q.2 - p.2) / (q.1 - p.1) ≤ q.2 - p.2 from by constructor <;> intro <;> linarith,
    div_le_iff hd1, mul_comm (q.2 - p.2) (q.1 - p.1), mul_le_mul_right hd2,
    sub_le_sub_iff_right]

theorem affine_gt {p q : ℚ × ℚ} (h1 : p.1 < q.1) (h2 : p.2 < q.2) {x : ℚ}
    (hx : p.1 < x) : p.2 < affine p q x := by
  unfold affine
  have hpos : 0 < (x - p.1) * (q.2 - p.2) / (q.1 - p.1) :=
    div_pos (mul_pos (by linarith) (by linarith)) (by linarith)
  linarith

/-- Negating the second coordinates negates the affine segment value. -/
theorem affine_negSnd (p q : ℚ × ℚ) (x : ℚ) :
    affine (p.1, -p.2) (q.1, -q.2) x = -(affine p q x) := by
  unfold affine
  ring

/-- Traversing a segment in the opposite direction with negated first
coordinates at a negated input gives the same value. -/
theorem affine_flip {p q : ℚ × ℚ} (h1 : p.1 ≠ q.1) (y : ℚ) :
    affine q p y = affine (-p.1, p.2) (-q.1, q.2) (-y) := by
  unfold affine
  have hd : p.1 - q.1 ≠ 0 := sub_ne_zero.mpr h1
  rw [show ((-p.1, p.2) : ℚ × ℚ).2 = p.2 from rfl,
    show ((-p.1, p.2) : ℚ × ℚ).1 = -p.1 from rfl,
    show ((-q.1, q.2) : ℚ × ℚ).1 = -q.1 from rfl,
    show (-q.1 - -p.1 : ℚ) = p.1 - q.1 from by ring]
  field_simp
  ring

/-! #### Structural lemmas about `interp` -/

/-- Last element of `p :: l`. -/
def lastP (p : ℚ × ℚ) : List (ℚ × ℚ) → ℚ × ℚ
  | [] => p
  | q :: t => lastP q t

/-- Last element of a list (`(0, 0)` when empty). -/
def listLast : List (ℚ × ℚ) → ℚ × ℚ
  | [] => (0, 0)
  | p :: t => lastP p t

theorem lastP_append_singleton (a v : ℚ × ℚ) :
    ∀ (t : List (ℚ × ℚ)), lastP a (t ++ [v]) = v := by
  intro t
  induction t generalizing a with
  | nil => rfl
  | cons b t ih => exact ih b

theorem listLast_append_singleton (A : List (ℚ × ℚ)) (v : ℚ × ℚ) :
    listLast (A ++ [v]) = v := by
  cases A with
  | nil => rfl
  | cons a t => exact lastP_append_singleton a v t

theorem affine_left (p q : ℚ × ℚ) : affine p q p.1 = p.2 := by
  unfold affine
  simp

theorem affine_right {p q : ℚ × ℚ} (h1 : p.1 ≠ q.1) : affine p q q.1 = q.2 := by
  unfold affine
  have hd : q.1 - p.1 ≠ 0 := sub_ne_zero.mpr (Ne.symm h1)
  field_simp

/-- In an ascending chain the head's first coordinate is below the last
element's. -/
theorem chain_lt_lastP :
    ∀ (rest : List (ℚ × ℚ)) (q r : ℚ × ℚ),
      (q :: r :: rest).Chain' (fun a b => a.1 < b.1) → q.1 < (lastP r rest).1 := by
  intro rest
  induction rest with
  | nil => intro q r h; exact (List.chain'_cons.mp h).1
  | cons s t ih =>
    intro q r h
    obtain ⟨hqr, htail⟩ := List.chain'_cons.mp h
    exact lt_trans hqr (ih r s htail)

/-- Strictly ascending interpolation exceeds the head value to the right
of the head node. -/
theorem interp_gt_head :
    ∀ (rest : List (ℚ × ℚ)) (p q : ℚ × ℚ) (x : ℚ),
      (p :: q :: rest).Chain' (fun a b => a.1 < b.1) →
      (p :: q :: rest).Chain' (fun a b => a.2 < b.2) →
      p.1 < x → p.2 < interp (p :: q :: rest) x := by
  intro rest
  induction rest with
  | nil =>
    intro p q x hx hy hpx
    exact affine_gt (List.chain'_cons.mp hx).1 (List.chain'_cons.mp hy).1 hpx
  | cons r rest ih =>
    intro p q x hx hy hpx
    obtain ⟨hx1, hxt⟩ := List.chain'_cons.mp hx
    obtain ⟨hy1, hyt⟩ := List.chain'_cons.mp hy
    show (if x ≤ q.1 then affine p q x else interp (q :: r :: rest) x) > p.2
    by_cases hcond : x ≤ q.1
    · rw [if_pos hcond]
      exact affine_gt hx1 hy1 hpx
    · rw [if_neg hcond]
      exact lt_trans hy1 (ih q r x hxt hyt (by linarith [not_le.mp hcond]))

/-- Interpolation evaluated at the last node returns its second
coordinate. -/
theorem interp_at_last :
    ∀ (rest : List (ℚ × ℚ)) (p q : ℚ × ℚ),
      (p :: q :: rest).Chain' (fun a b => a.1 < b.1) →
      interp (p :: q :: rest) (lastP q rest).1 = (lastP q rest).2 := by
  intro rest
  induction rest with
  | nil =>
    intro p q hx
    exact affine_right (ne_of_lt (List.chain'_cons.mp hx).1)
  | cons r rest ih =>
    intro p q hx
    obtain ⟨hx1, hxt⟩ := List.chain'_cons.mp hx
    show (if (lastP r rest).1 ≤ q.1 then affine p q (lastP r rest).1
      else interp (q :: r :: rest) (lastP r rest).1) = (lastP r rest).2
    rw [if_neg (not_le.mpr (chain_lt_lastP rest q r hxt))]
    exact ih q r hxt

/-- Round trip through a strictly ascending (in both coordinates) point
list: the swapped-point interpolation inverts the interpolation exactly. -/
theorem interp_swap_inv :
    ∀ (rest : List (ℚ × ℚ)) (p q : ℚ × ℚ) (x : ℚ),
      (p :: q :: rest).Chain' (fun a b => a.1 < b.1) →
      (p :: q :: rest).Chain' (fun a b => a.2 < b.2) →
      interp ((p :: q :: rest).map swapPoint) (interp (p :: q :: rest) x) = x := by
  intro rest
  induction rest with
  | nil =>
    intro p q x hx hy
    exact affine_inv (ne_of_lt (List.chain'_cons.mp hx).1)
      (ne_of_lt (List.chain'_cons.mp hy).1) x
  | cons r rest ih =>
    intro p q x hx hy
    obtain ⟨hx1, hxt⟩ := List.chain'_cons.mp hx
    obtain ⟨hy1, hyt⟩ := List.chain'_cons.mp hy
    show interp (swapPoint p :: swapPoint q :: swapPoint r :: rest.map swapPoint)
      (if x ≤ q.1 then affine p q x else interp (q :: r :: rest) x) = x
    by_cases hcond : x ≤ q.1
    · rw [if_pos hcond]
      show (if affine p q x ≤ q.2
        then affine (swapPoint p) (swapPoint q) (affine p q x)
        else interp (swapPoint q :: swapPoint r :: rest.map swapPoint) (affine p q x)) = x
      rw [if_pos (by exact (affine_le_iff hx1 hy1 x).mpr hcond)]
      exact affine_inv (ne_of_lt hx1) (ne_of_lt hy1) x
    · rw [if_neg hcond]
      have hgt : q.2 < interp (q :: r :: rest) x :=
        interp_gt_head rest q r x hxt hyt (not_le.mp hcond)
      show (if interp (q :: r :: rest) x ≤ q.2
        then affine (swapPoint p) (swapPoint q) (interp (q :: r :: rest) x)
        else interp (swapPoint q :: swapPoint r :: rest.map swapPoint)
          (interp (q :: r :: rest) x)) = x
      rw [if_neg (not_le.mpr hgt)]
      exact ih q r x hxt hyt

/-- Negating every second coordinate negates the interpolated value. -/
theorem interp_negSnd :
    ∀ (ps : List (ℚ × ℚ)) (x : ℚ),
      interp (ps.map (fun p => (p.1, -p.2))) x = -(interp ps x) := by
  intro ps
  induction ps with
  | nil => intro x; simp [interp]
  | cons p tail ih =>
    intro x
    cases tail with
    | nil => simp [interp]
    | cons q tail2 =>
      cases tail2 with
      | nil => exact affine_negSnd p q x
      | cons r tail3 =>
        show (if x ≤ (q.1, -q.2).1 then affine (p.1, -p.2) (q.1, -q.2) x
          else interp ((q :: r :: tail3).map (fun p => (p.1, -p.2))) x) =
          -(if x ≤ q.1 then affine p q x else interp (q :: r :: tail3) x)
        by_cases hcond : x ≤ q.1
        · rw [if_pos hcond, if_pos hcond]
          exact affine_negSnd p q x
        · rw [if_neg hcond, if_neg hcond]
          exact ih x

/-- Appending a point beyond the last node extends the interpolation with
one more segment. -/
theorem interp_append (v : ℚ × ℚ) :
    ∀ (rest : List (ℚ × ℚ)) (p q : ℚ × ℚ) (y : ℚ),
      (p :: q :: rest).Chain' (fun a b => a.1 < b.1) →
      interp ((p :: q :: rest) ++ [v]) y =
        if y ≤ (lastP q rest).1 then interp (p :: q :: rest) y
        else affine (lastP q rest) v y := by
  intro rest
  induction rest with
  | nil =>
    intro p q y _
    show (if y ≤ q.1 then affine p q y else interp [q, v] y) =
      if y ≤ q.1 then affine p q y else affine q v y
    by_cases hcond : y ≤ q.1
    · rw [if_pos hcond, if_pos hcond]
    · rw [if_neg hcond, if_neg hcond]
      rfl
  | cons r rest ih =>
    intro p q y hx
    obtain ⟨hx1, hxt⟩ := List.chain'_cons.mp hx
    have hql : q.1 < (lastP r rest).1 := chain_lt_lastP rest q r hxt
    show (if y ≤ q.1 then affine p q y else interp ((q :: r :: rest) ++ [v]) y) =
      if y ≤ (lastP r rest).1
      then (if y ≤ q.1 then affine p q y else interp (q :: r :: rest) y)
      else affine (lastP r rest) v y
    by_cases hcond : y ≤ q.1
    · rw [if_pos hcond, if_pos (le_of_lt (lt_of_le_of_lt hcond hql)), if_pos hcond]
    · rw [if_neg hcond, ih q r y hxt]
      by_cases hcond2 : y ≤ (lastP r rest).1
      · rw [if_pos hcond2, if_pos hcond2, if_neg hcond]
      · rw [if_neg hcond2, if_neg hcond2]

/-- Interpolating a strictly descending point list in reverse equals
interpolating the list with negated first coordinates at the negated
input. -/
theorem interp_rev :
    ∀ (M : List (ℚ × ℚ)) (p q : ℚ × ℚ) (y : ℚ),
      (p :: q :: M).Chain' (fun a b => b.1 < a.1) →
      interp ((p :: q :: M).reverse) y =
        interp ((p :: q :: M).map (fun a => (-a.1, a.2))) (-y) := by
  intro M
  induction M with
  | nil =>
    intro p q y hx
    have h1 : q.1 < p.1 := (List.chain'_cons.mp hx).1
    show interp [q, p] y = interp [(-p.1, p.2), (-q.1, q.2)] (-y)
    show affine q p y = affine (-p.1, p.2) (-q.1, q.2) (-y)
    exact affine_flip (ne_of_gt h1) y
  | cons r M' ih =>
    intro p q y hx
    obtain ⟨hx1, hxt⟩ := List.chain'_cons.mp hx
    have hrevlen : 2 ≤ ((q :: r :: M').reverse).length := by
      simp
    -- (p :: q :: r :: M').reverse = (q :: r :: M').reverse ++ [p]
    have hsplit : (p :: q :: r :: M').reverse = ((q :: r :: M').reverse) ++ [p] := by
      simp
    have hrevchain : ((q :: r :: M').reverse).Chain' (fun a b => a.1 < b.1) := by
      rw [List.chain'_reverse]
      exact hxt
    have hlast : listLast ((q :: r :: M').reverse) = q := by
      have : (q :: r :: M').reverse = ((r :: M').reverse) ++ [q] := by simp
      rw [this, listLast_append_singleton]
    -- decompose the reversed list into its first two elements
    obtain ⟨a, A, hA⟩ : ∃ a A, (q :: r :: M').reverse = a :: A := by
      cases h : (q :: r :: M').reverse with
      | nil => exact absurd (congrArg List.length h) (by simp)
      | cons a A => exact ⟨a, A, rfl⟩
    obtain ⟨b, B, hB⟩ : ∃ b B, A = b :: B := by
      cases h : A with
      | nil =>
        rw [h] at hA
        exact absurd (congrArg List.length hA) (by simp)
      | cons b B => exact ⟨b, B, rfl⟩
    have hshape : (q :: r :: M').reverse = a :: b :: B := by rw [hA, hB]
    have hlastP : (lastP b B) = q := by
      have := hlast
      rw [hshape] at this
      exact this
    have happend := interp_append p B a b y (hshape ▸ hrevchain)
    rw [hsplit, hshape, happend, hlastP]
    -- right-hand side: unfold one step of the negated-fst interpolation
    show _ = (if -y ≤ (-q.1, q.2).1
      then affine (-p.1, p.2) (-q.1, q.2) (-y)
      else interp ((q :: r :: M').map (fun a => (-a.1, a.2))) (-y))
    rcases lt_trichotomy y q.1 with hlt | heq | hgt
    · rw [if_pos (le_of_lt hlt), if_neg (by simp; linarith)]
      rw [← hshape, ih q r y hxt]
    · subst heq
      rw [if_pos (le_refl _), if_pos (by simp)]
      have hnode : interp (a :: b :: B) (lastP b B).1 = (lastP b B).2 := by
        exact interp_at_last B a b (hshape ▸ hrevchain)
      rw [hlastP] at hnode
      rw [hnode, ← affine_flip (ne_of_gt hx1), affine_left]
    · rw [if_neg (not_le.mpr hgt), if_pos (by simp; linarith)]
      exact affine_flip (ne_of_gt hx1) y

/-! #### Sorting lemmas -/

theorem sortByKey_sorted_id (key : ℚ × ℚ → ℚ) :
    ∀ l : List (ℚ × ℚ), l.Chain' (fun p q => key p < key q) → sortByKey key l = l := by
  intro l
  induction l with
  | nil => intro _; rfl
  | cons a as ih =>
    intro h
    show insertByKey key a (sortByKey key as) = a :: as
    rw [ih h.tail]
    cases as with
    | nil => rfl
    | cons b bs =>
      show (if key a < key b then a :: b :: bs else b :: insertByKey key a bs) = a :: b :: bs
      rw [if_pos (List.chain'_cons.mp h).1]

theorem insertByKey_last (key : ℚ × ℚ → ℚ) (a : ℚ × ℚ) :
    ∀ l : List (ℚ × ℚ), (∀ b ∈ l, ¬ key a < key b) → insertByKey key a l = l ++ [a] := by
  intro l
  induction l with
  | nil => intro _; rfl
  | cons b bs ih =>
    intro h
    show (if key a < key b then a :: b :: bs else b :: insertByKey key a bs) = b :: (bs ++ [a])
    rw [if_neg (h b (List.mem_cons_self b bs)),
      ih (fun c hc => h c (List.mem_cons_of_mem b hc))]

theorem chain_desc_head (key : ℚ × ℚ → ℚ) :
    ∀ (as : List (ℚ × ℚ)) (a : ℚ × ℚ),
      (a :: as).Chain' (fun p q => key q < key p) → ∀ b ∈ as, key b < key a := by
  intro as
  induction as with
  | nil => intro a _ b hb; simp at hb
  | cons c t ih =>
    intro a h b hb
    obtain ⟨hac, htail⟩ := List.chain'_cons.mp h
    rcases List.mem_cons.mp hb with rfl | hbt
    · exact hac
    · exact lt_trans (ih c htail b hbt) hac

theorem sortByKey_desc_rev (key : ℚ × ℚ → ℚ) :
    ∀ l : List (ℚ × ℚ), l.Chain' (fun p q => key q < key p) → sortByKey key l = l.reverse := by
  intro l
  induction l with
  | nil => intro _; rfl
  | cons a as ih =>
    intro h
    show insertByKey key a (sortByKey key as) = (a :: as).reverse
    rw [ih h.tail, List.reverse_cons]
    exact insertByKey_last key a as.reverse fun b hb =>
      not_lt.mpr (le_of_lt (chain_desc_head key as a h b (List.mem_reverse.mp hb)))

/-! #### The round trip -/

/-- Value-level round trip: for strictly monotone calibration points the
unformat interpolation inverts the format interpolation exactly, so the
composition is `pyRound` of the input. -/
theorem transform_round_trip_val (points : List (ℚ × ℚ))
    (hlen : 2 ≤ points.length)
    (hx : points.Chain' (fun p q => p.1 < q.1))
    (hy : points.Chain' (fun p q => p.2 < q.2) ∨
      points.Chain' (fun p q => q.2 < p.2)) (v : ℚ) :
    transform_from_points_unformat points (transform_from_points_format points v) =
      pyRound v := by
  obtain ⟨p, q, rest, rfl⟩ : ∃ p q rest, points = p :: q :: rest := by
    cases points with
    | nil => simp at hlen
    | cons p t =>
      cases t with
      | nil => simp at hlen
      | cons q rest => exact ⟨p, q, rest, rfl⟩
  unfold transform_from_points_unformat transform_from_points_format
  rw [sortByKey_sorted_id Prod.fst _ hx]
  rcases hy with hasc | hdesc
  · rw [sortByKey_sorted_id Prod.snd _ hasc]
    congr 1
    exact interp_swap_inv rest p q v hx hasc
  · rw [sortByKey_desc_rev Prod.snd _ hdesc]
    congr 1
    rw [List.map_reverse]
    have hLdesc : ((p :: q :: rest).map swapPoint).Chain' (fun a b => b.1 < a.1) := by
      rw [List.chain'_map]
      exact hdesc
    have hrev := interp_rev (rest.map swapPoint) (swapPoint p) (swapPoint q)
      (interp (p :: q :: rest) v) (by simpa [List.map_cons] using hLdesc)
    rw [show ((p :: q :: rest).map swapPoint).reverse =
      (swapPoint p :: swapPoint q :: rest.map swapPoint).reverse from by simp, hrev]
    -- rewrite the negated-fst swapped list as the swapped negated-snd list
    have hlist : (swapPoint p :: swapPoint q :: rest.map swapPoint).map
        (fun a => (-a.1, a.2)) =
        ((p :: q :: rest).map (fun a => (a.1, -a.2))).map swapPoint := by
      show ((p :: q :: rest).map swapPoint).map (fun a => (-a.1, a.2)) = _
      rw [List.map_map, List.map_map]
      rfl
    rw [hlist]
    have hnegsnd := interp_negSnd (p :: q :: rest) v
    rw [← hnegsnd]
    have hqx : ((p :: q :: rest).map (fun a => (a.1, -a.2))).Chain'
        (fun a b => a.1 < b.1) := by
      rw [List.chain'_map]
      exact hx
    have hqy : ((p :: q :: rest).map (fun a => (a.1, -a.2))).Chain'
        (fun a b => a.2 < b.2) := by
      rw [List.chain'_map]
      exact hdesc.imp fun h => by simpa using neg_lt_neg h
    have := interp_swap_inv (rest.map (fun a => (a.1, -a.2)))
      ((p.1, -p.2)) ((q.1, -q.2)) v
      (by simpa [List.map_cons] using hqx) (by simpa [List.map_cons] using hqy)
    simpa [List.map_cons] using this

/-- C3: for every format built by `_transform_from_points` from
calibration points with strictly monotone raw and real coordinates
(either real-orientation), and every representable raw value of a
`w`-bit field, the inverse transform recovers the raw value exactly:
unsigned fields round-trip as `unformat (format raw) = raw`, and signed
fields round-trip with `_twosComplementToSigned` applied before the
forward transform and `_signedToTwosComplement` after the inverse.
(Over the exact-rational model the nearest-integer rounding of the
inverse is exact everywhere, calibration points included.) -/
theorem calibrated_transform_round_trip (points : List (ℚ × ℚ)) (w : ℕ)
    (hlen : 2 ≤ points.length) (hw : 1 ≤ w)
    (hx : points.Chain' (fun p q => p.1 < q.1))
    (hy : points.Chain' (fun p q => p.2 < q.2) ∨
      points.Chain' (fun p q => q.2 < p.2)) :
    (∀ raw : ℕ, raw < 2 ^ w →
      transform_from_points_unformat points
        (transform_from_points_format points (raw : ℚ)) = (raw : ℤ)) ∧
    (∀ raw : ℕ, raw < 2 ^ w →
      ∃ s : ℤ, _twosComplementToSigned raw w = .ok s ∧
        _signedToTwosComplement
          (transform_from_points_unformat points
            (transform_from_points_format points (s : ℚ))) w = (raw : ℤ)) := by
  have hpow : (2 : ℤ) ^ w = 2 * 2 ^ (w - 1) := int_two_pow_succ_half w hw
  have hhalf : (0 : ℤ) < 2 ^ (w - 1) := by positivity
  constructor
  · intro raw hraw
    rw [transform_round_trip_val points hlen hx hy,
      show ((raw : ℕ) : ℚ) = (((raw : ℕ) : ℤ) : ℚ) from by push_cast; ring]
    exact pyRound_intCast _
  · intro raw hraw
    have hb : raw ≤ 2 ^ w - 1 := by omega
    have hrawZ : (raw : ℤ) < 2 ^ w := by exact_mod_cast hraw
    refine ⟨_, twosToSigned_eq w raw hb, ?_⟩
    set s : ℤ := if raw ≥ 2 ^ (w - 1) then (raw : ℤ) - 2 ^ w else (raw : ℤ) with hs
    rw [transform_round_trip_val points hlen hx hy,
      show ((s : ℤ) : ℚ) = ((s : ℤ) : ℚ) from rfl, pyRound_intCast s,
      signedToTwos_eq w hw s]
    by_cases hge : raw ≥ 2 ^ (w - 1)
    · have hgeZ : (2 : ℤ) ^ (w - 1) ≤ (raw : ℤ) := by
        have : ((2 ^ (w - 1) : ℕ) : ℤ) ≤ (raw : ℤ) := by exact_mod_cast hge
        simpa using this
      have hsv : s = (raw : ℤ) - 2 ^ w := by rw [hs, if_pos hge]
      have hmin : min s (2 ^ (w - 1) - 1) = s := min_eq_left (by omega)
      have hmax : max (-(2 ^ (w - 1))) s = s := max_eq_right (by omega)
      simp only [hmin, hmax]
      rw [if_pos (by omega)]
      omega
    · have hltZ : (raw : ℤ) < 2 ^ (w - 1) := by
        have : (raw : ℤ) < ((2 ^ (w - 1) : ℕ) : ℤ) := by exact_mod_cast not_le.mp hge
        simpa using this
      have hsv : s = (raw : ℤ) := by rw [hs, if_neg hge]
      have hmin : min s (2 ^ (w - 1) - 1) = s := min_eq_left (by omega)
      have hmax : max (-(2 ^ (w - 1))) s = s := max_eq_right (by omega)
      simp only [hmin, hmax]
      rw [if_neg (by omega)]
      omega

/-- C3 witness on the `cell_format`-style point list
`[(0, 0), (1, 182.8e-6)]` at `w = 16`, `raw = 5` (unsigned) and
`raw = 0xFFFF` (signed). -/
theorem calibrated_transform_round_trip_witness :
    transform_from_points_unformat [(0, 0), (1, 1828 / 10000000)]
      (transform_from_points_format [(0, 0), (1, 1828 / 10000000)] ((5 : ℕ) : ℚ)) =
      ((5 : ℕ) : ℤ) ∧
    (∃ s : ℤ, _twosComplementToSigned 0xFFFF 16 = .ok s ∧
      _signedToTwosComplement
        (transform_from_points_unformat [(0, 0), (1, 1828 / 10000000)]
          (transform_from_points_format [(0, 0), (1, 1828 / 10000000)] (s : ℚ))) 16 =
        ((0xFFFF : ℕ) : ℤ)) :=
  ⟨(calibrated_transform_round_trip [(0, 0), (1, 1828 / 10000000)] 16
      (by norm_num) (by norm_num)
      (List.chain'_cons.mpr ⟨by norm_num, List.chain'_singleton _⟩)
      (Or.inl (List.chain'_cons.mpr ⟨by norm_num, List.chain'_singleton _⟩))).1
      5 (by norm_num),
   (calibrated_transform_round_trip [(0, 0), (1, 1828 / 10000000)] 16
      (by norm_num) (by norm_num)
      (List.chain'_cons.mpr ⟨by norm_num, List.chain'_singleton _⟩)
      (Or.inl (List.chain'_cons.mpr ⟨by norm_num, List.chain'_singleton _⟩))).2
      0xFFFF (by norm_num)⟩

/-! ### The bit-field engine: register map, presets, formats
(`_register_map`, `_formatters`, `_format`, `_unformat`, `_write_bf`,
`enable_read_presets`, `get_status`, `__setattr__`)

Python dicts are association lists with first-match lookup and
in-place/append insertion.  The register map normally maps field names to
field dicts, but `enable_read_presets` can insert a stray boolean entry,
so the value type is a sum. -/

/-- External values crossing the field API: numbers (Python int/float as
`ℚ`) or strings (preset labels). -/
inductive PyVal
  | num (q : ℚ)
  | str (s : String)
  deriving Repr, DecidableEq

/-- One field dict of `_register_map`. -/
structure BFDict where
  command_code : ℕ
  size : ℕ
  offset : ℕ
  read_presets_enabled : Bool
  presets : List (String × ℕ)
  allowed_formats : List String
  active_format : String
  deriving Repr, DecidableEq

/-- A `_register_map` dict value: a field dict, or the stray boolean that
`enable_read_presets` stores under the literal key
`'bf_nameread_presets_enabled'`. -/
inductive RegMapEntry
  | bf (d : BFDict)
  | flag (b : Bool)
  deriving Repr, DecidableEq

/-- Python dict lookup (first binding wins). -/
def dictLookup (m : List (String × RegMapEntry)) (k : String) : Option RegMapEntry :=
  (m.find? (fun e => e.1 == k)).map (·.2)

/-- Python dict insertion: overwrite in place, else append. -/
def dictInsert : List (String × RegMapEntry) → String → RegMapEntry → List (String × RegMapEntry)
  | [], k, v => [(k, v)]
  | (k', v') :: t, k, v =>
      if k' == k then (k', v) :: t else (k', v') :: dictInsert t k v

def _register_map_part0 : List (String × RegMapEntry) := [
  ("ctl_start_cap_esr_meas", .bf ⟨0x00, 1, 0, true, [("start_measurement", 1)], [], "None"⟩),
  ("ctl_gpi_buffer_en", .bf ⟨0x00, 1, 1, true, [], [], "None"⟩),
  ("ctl_stop_cap_esr_meas", .bf ⟨0x00, 1, 2, true, [("stop_measurement", 1)], [], "None"⟩),
  ("ctl_cap_scale", .bf ⟨0x00, 1, 3, true, [("large_cap", 0), ("small_cap", 1)], [], "None"⟩),
  ("ctl_disable_shunt", .bf ⟨0x00, 1, 4, true, [], [], "None"⟩),
  ("ctl_hotswap_disable", .bf ⟨0x00, 1, 5, true, [], [], "None"⟩),
  ("ctl_force_boost_off", .bf ⟨0x00, 1, 6, true, [], [], "None"⟩),
  ("ctl_force_charger_off", .bf ⟨0x00, 1, 7, true, [], [], "None"⟩),
  ("ctl_force_itst_on", .bf ⟨0x00, 1, 8, true, [], [], "None"⟩),
  ("ctl_disable_balancer", .bf ⟨0x00, 1, 10, true, [], [], "None"⟩),
  ("ctl_reg", .bf ⟨0x00, 16, 0, true, [], [], "None"⟩),
  ("mask_alarm_gpi_uv", .bf ⟨0x01, 1, 0, true, [], [], "None"⟩),
  ("mask_alarm_gpi_ov", .bf ⟨0x01, 1, 1, true, [], [], "None"⟩),
  ("mask_alarm_vin_uv", .bf ⟨0x01, 1, 2, true, [], [], "None"⟩),
  ("mask_alarm_vin_ov", .bf ⟨0x01, 1, 3, true, [], [], "None"⟩)]

def _register_map_part1 : List (String × RegMapEntry) := [
  ("mask_alarm_vcap_uv", .bf ⟨0x01, 1, 4, true, [], [], "None"⟩),
  ("mask_alarm_vcap_ov", .bf ⟨0x01, 1, 5, true, [], [], "None"⟩),
  ("mask_alarm_vout_uv", .bf ⟨0x01, 1, 6, true, [], [], "None"⟩),
  ("mask_alarm_vout_ov", .bf ⟨0x01, 1, 7, true, [], [], "None"⟩),
  ("mask_alarm_dtemp_cold", .bf ⟨0x01, 1, 8, true, [], [], "None"⟩),
  ("mask_alarm_dtemp_hot", .bf ⟨0x01, 1, 9, true, [], [], "None"⟩),
  ("mask_alarm_ichg_uc", .bf ⟨0x01, 1, 10, true, [], [], "None"⟩),
  ("mask_alarm_iin_oc", .bf ⟨0x01, 1, 11, true, [], [], "None"⟩),
  ("mask_alarm_cap_uv", .bf ⟨0x01, 1, 12, true, [], [], "None"⟩),
  ("mask_alarm_cap_ov", .bf ⟨0x01, 1, 13, true, [], [], "None"⟩),
  ("mask_alarm_cap_lo", .bf ⟨0x01, 1, 14, true, [], [], "None"⟩),
  ("mask_alarm_esr_hi", .bf ⟨0x01, 1, 15, true, [], [], "None"⟩),
  ("alarm_mask_reg", .bf ⟨0x01, 16, 0, true, [], [], "None"⟩),
  ("mask_mon_meas_active", .bf ⟨0x02, 1, 0, true, [], [], "None"⟩),
  ("mask_mon_capesr_pending", .bf ⟨0x02, 1, 2, true, [], [], "None"⟩)]

def _register_map_part2 : List (String × RegMapEntry) := [
  ("mask_mon_cap_done", .bf ⟨0x02, 1, 3, true, [], [], "None"⟩),
  ("mask_mon_esr_done", .bf ⟨0x02, 1, 4, true, [], [], "None"⟩),
  ("mask_mon_meas_failed", .bf ⟨0x02, 1, 5, true, [], [], "None"⟩),
  ("mask_mon_disable_charger", .bf ⟨0x02, 1, 7, true, [], [], "None"⟩),
  ("mask_mon_cap_meas_active", .bf ⟨0x02, 1, 8, true, [], [], "None"⟩),
  ("mask_mon_esr_meas_active", .bf ⟨0x02, 1, 9, true, [], [], "None"⟩),
  ("mask_mon_power_failed", .bf ⟨0x02, 1, 10, true, [], [], "None"⟩),
  ("mask_mon_power_returned", .bf ⟨0x02, 1, 11, true, [], [], "None"⟩),
  ("mask_mon_balancing", .bf ⟨0x02, 1, 12, true, [], [], "None"⟩),
  ("mask_mon_shunting", .bf ⟨0x02, 1, 13, true, [], [], "None"⟩),
  ("mask_mon_cap_precharge", .bf ⟨0x02, 1, 14, true, [], [], "None"⟩),
  ("monitor_status_mask_reg", .bf ⟨0x02, 16, 0, true, [], [], "None"⟩),
  ("vcapfb_dac", .bf ⟨0x03, 4, 0, true, [], ["vcapfb_dac_format"], "vcapfb_dac_format"⟩),
  ("vcapfb_dac_reg", .bf ⟨0x03, 16, 0, true, [], [], "None"⟩),
  ("vshunt", .bf ⟨0x05, 16, 0, true, [], ["cell_format"], "cell_format"⟩)]

def _register_map_part3 : List (String × RegMapEntry) := [
  ("adc_vin_ichg_en", .bf ⟨0x06, 1, 1, true, [], [], "None"⟩),
  ("adc_vin_dtemp_en", .bf ⟨0x06, 1, 2, true, [], [], "None"⟩),
  ("adc_vin_gpi_en", .bf ⟨0x06, 1, 3, true, [], [], "None"⟩),
  ("adc_vin_iin_en", .bf ⟨0x06, 1, 4, true, [], [], "None"⟩),
  ("adc_vin_vout_en", .bf ⟨0x06, 1, 5, true, [], [], "None"⟩),
  ("adc_vin_vcap_en", .bf ⟨0x06, 1, 6, true, [], [], "None"⟩),
  ("adc_vin_vin_en", .bf ⟨0x06, 1, 7, true, [], [], "None"⟩),
  ("adc_vin_vcap1_en", .bf ⟨0x06, 1, 8, true, [], [], "None"⟩),
  ("adc_vin_vcap2_en", .bf ⟨0x06, 1, 9, true, [], [], "None"⟩),
  ("adc_vin_vcap3_en", .bf ⟨0x06, 1, 10, true, [], [], "None"⟩),
  ("adc_vin_vcap4_en", .bf ⟨0x06, 1, 11, true, [], [], "None"⟩),
  ("adc_vin_ch_en_reg", .bf ⟨0x06, 16, 0, true, [], [], "None"⟩),
  ("adc_backup_ichg_en", .bf ⟨0x07, 1, 1, true, [], [], "None"⟩),
  ("adc_backup_dtemp_en", .bf ⟨0x07, 1, 2, true, [], [], "None"⟩),
  ("adc_backup_gpi_en", .bf ⟨0x07, 1, 3, true, [], [], "None"⟩)]

def _register_map_part4 : List (String × RegMapEntry) := [
  ("adc_backup_iin_en", .bf ⟨0x07, 1, 4, true, [], [], "None"⟩),
  ("adc_backup_vout_en", .bf ⟨0x07, 1, 5, true, [], [], "None"⟩),
  ("adc_backup_vcap_en", .bf ⟨0x07, 1, 6, true, [], [], "None"⟩),
  ("adc_backup_vin_en", .bf ⟨0x07, 1, 7, true, [], [], "None"⟩),
  ("adc_backup_vcap1_en", .bf ⟨0x07, 1, 8, true, [], [], "None"⟩),
  ("adc_backup_vcap2_en", .bf ⟨0x07, 1, 9, true, [], [], "None"⟩),
  ("adc_backup_vcap3_en", .bf ⟨0x07, 1, 10, true, [], [], "None"⟩),
  ("adc_backup_vcap4_en", .bf ⟨0x07, 1, 11, true, [], [], "None"⟩),
  ("adc_backup_ch_en_reg", .bf ⟨0x07, 16, 0, true, [], [], "None"⟩),
  ("adc_wait_vin", .bf ⟨0x08, 16, 0, true, [], [], "None"⟩),
  ("adc_wait_backup", .bf ⟨0x09, 16, 0, true, [], [], "None"⟩),
  ("gpi_uv_lvl", .bf ⟨0x0a, 16, 0, true, [], ["cell_format"], "cell_format"⟩),
  ("gpi_ov_lvl", .bf ⟨0x0b, 16, 0, true, [], ["cell_format"], "cell_format"⟩),
  ("vin_uv_lvl", .bf ⟨0x0c, 16, 0, true, [], ["vin_format"], "vin_format"⟩),
  ("vin_ov_lvl", .bf ⟨0x0d, 16, 0, true, [], ["vin_format"], "vin_format"⟩)]

def _register_map_part5 : List (String × RegMapEntry) := [
  ("vcap_uv_lvl", .bf ⟨0x0e, 16, 0, true, [], ["vcap_format"], "vcap_format"⟩),
  ("vcap_ov_lvl", .bf ⟨0x0f, 16, 0, true, [], ["vcap_format"], "vcap_format"⟩),
  ("vout_uv_lvl", .bf ⟨0x10, 16, 0, true, [], ["vout_format"], "vout_format"⟩),
  ("vout_ov_lvl", .bf ⟨0x11, 16, 0, true, [], ["vout_format"], "vout_format"⟩),
  ("dtemp_cold_lvl", .bf ⟨0x12, 16, 0, true, [], ["dtemp_format"], "dtemp_format"⟩),
  ("dtemp_hot_lvl", .bf ⟨0x13, 16, 0, true, [], ["dtemp_format"], "dtemp_format"⟩),
  ("ichg_uc_lvl", .bf ⟨0x14, 16, 0, true, [], ["icharge_format"], "icharge_format"⟩),
  ("iin_oc_lvl", .bf ⟨0x15, 16, 0, true, [], ["iin_format"], "iin_format"⟩),
  ("cap_uv_lvl", .bf ⟨0x16, 16, 0, true, [], ["cell_format"], "cell_format"⟩),
  ("cap_ov_lvl", .bf ⟨0x17, 16, 0, true, [], ["cell_format"], "cell_format"⟩),
  ("cap_lo_lvl", .bf ⟨0x18, 16, 0, true, [], ["cap_format"], "cap_format"⟩),
  ("esr_hi_lvl", .bf ⟨0x19, 16, 0, true, [], ["esr_format"], "esr_format"⟩),
  ("esr_i_on_settling", .bf ⟨0x1a, 16, 0, true, [], [], "None"⟩),
  ("esr_i_off_settling", .bf ⟨0x1b, 16, 0, true, [], [], "None"⟩),
  ("esr_i_override", .bf ⟨0x1c, 16, 0, true, [], [], "None"⟩)]

def _register_map_part6 : List (String × RegMapEntry) := [
  ("cap_i_on_settling", .bf ⟨0x1d, 16, 0, true, [], [], "None"⟩),
  ("cap_delta_v_setting", .bf ⟨0x1e, 16, 0, true, [], [], "None"⟩),
  ("min_boost_cap_voltage", .bf ⟨0x1f, 16, 0, true, [], ["cell_format"], "cell_format"⟩),
  ("min_vout_hs_disable", .bf ⟨0x20, 16, 0, true, [], ["vout_format"], "vout_format"⟩),
  ("alarm_gpi_uv", .bf ⟨0x23, 1, 0, true, [], [], "None"⟩),
  ("alarm_gpi_ov", .bf ⟨0x23, 1, 1, true, [], [], "None"⟩),
  ("alarm_vin_uv", .bf ⟨0x23, 1, 2, true, [], [], "None"⟩),
  ("alarm_vin_ov", .bf ⟨0x23, 1, 3, true, [], [], "None"⟩),
  ("alarm_vcap_uv", .bf ⟨0x23, 1, 4, true, [], [], "None"⟩),
  ("alarm_vcap_ov", .bf ⟨0x23, 1, 5, true, [], [], "None"⟩),
  ("alarm_vout_uv", .bf ⟨0x23, 1, 6, true, [], [], "None"⟩),
  ("alarm_vout_ov", .bf ⟨0x23, 1, 7, true, [], [], "None"⟩),
  ("alarm_dtemp_cold", .bf ⟨0x23, 1, 8, true, [], [], "None"⟩),
  ("alarm_dtemp_hot", .bf ⟨0x23, 1, 9, true, [], [], "None"⟩),
  ("alarm_ichg_uc", .bf ⟨0x23, 1, 10, true, [], [], "None"⟩)]

def _register_map_part7 : List (String × RegMapEntry) := [
  ("alarm_iin_oc", .bf ⟨0x23, 1, 11, true, [], [], "None"⟩),
  ("alarm_cap_uv", .bf ⟨0x23, 1, 12, true, [], [], "None"⟩),
  ("alarm_cap_ov", .bf ⟨0x23, 1, 13, true, [], [], "None"⟩),
  ("alarm_cap_lo", .bf ⟨0x23, 1, 14, true, [], [], "None"⟩),
  ("alarm_esr_hi", .bf ⟨0x23, 1, 15, true, [], [], "None"⟩),
  ("alarm_reg", .bf ⟨0x23, 16, 0, true, [], [], "None"⟩),
  ("mon_meas_active", .bf ⟨0x24, 1, 0, true, [], [], "None"⟩),
  ("mon_capesr_scheduled", .bf ⟨0x24, 1, 1, true, [], [], "None"⟩),
  ("mon_capesr_pending", .bf ⟨0x24, 1, 2, true, [], [], "None"⟩),
  ("mon_cap_done", .bf ⟨0x24, 1, 3, true, [], [], "None"⟩),
  ("mon_esr_done", .bf ⟨0x24, 1, 4, true, [], [], "None"⟩),
  ("mon_meas_failed", .bf ⟨0x24, 1, 5, true, [], [], "None"⟩),
  ("mon_boost_shutdown", .bf ⟨0x24, 1, 6, true, [], [], "None"⟩),
  ("mon_disable_charger", .bf ⟨0x24, 1, 7, true, [], [], "None"⟩),
  ("mon_cap_meas_active", .bf ⟨0x24, 1, 8, true, [], [], "None"⟩)]

def _register_map_part8 : List (String × RegMapEntry) := [
  ("mon_esr_meas_active", .bf ⟨0x24, 1, 9, true, [], [], "None"⟩),
  ("mon_power_failed", .bf ⟨0x24, 1, 10, true, [], [], "None"⟩),
  ("mon_power_returned", .bf ⟨0x24, 1, 11, true, [], [], "None"⟩),
  ("mon_balancing", .bf ⟨0x24, 1, 12, true, [], [], "None"⟩),
  ("mon_shunting", .bf ⟨0x24, 1, 13, true, [], [], "None"⟩),
  ("mon_cap_precharge", .bf ⟨0x24, 1, 14, true, [], [], "None"⟩),
  ("mon_reset", .bf ⟨0x24, 1, 15, true, [], [], "None"⟩),
  ("monitor_status_reg", .bf ⟨0x24, 16, 0, true, [], [], "None"⟩),
  ("meas_gpi", .bf ⟨0x25, 16, 0, true, [], ["cell_format"], "cell_format"⟩),
  ("meas_vin", .bf ⟨0x26, 16, 0, true, [], ["vin_format"], "vin_format"⟩),
  ("meas_vcap", .bf ⟨0x27, 16, 0, true, [], ["vcap_format"], "vcap_format"⟩),
  ("meas_vout", .bf ⟨0x28, 16, 0, true, [], ["vout_format"], "vout_format"⟩),
  ("meas_dtemp", .bf ⟨0x29, 16, 0, true, [], ["dtemp_format"], "dtemp_format"⟩),
  ("meas_ichg", .bf ⟨0x2a, 16, 0, true, [], ["icharge_format"], "icharge_format"⟩),
  ("meas_iin", .bf ⟨0x2b, 16, 0, true, [], ["iin_format"], "iin_format"⟩)]

def _register_map_part9 : List (String × RegMapEntry) := [
  ("lo_vcap", .bf ⟨0x2c, 16, 0, true, [], ["cell_format"], "cell_format"⟩),
  ("hi_vcap", .bf ⟨0x2d, 16, 0, true, [], ["cell_format"], "cell_format"⟩),
  ("meas_cap", .bf ⟨0x2e, 16, 0, true, [], ["cap_format", "cap_zs_format"], "cap_format"⟩),
  ("meas_esr", .bf ⟨0x2f, 16, 0, true, [], ["esr_format"], "esr_format"⟩),
  ("meas_vcap1", .bf ⟨0x30, 16, 0, true, [], ["cell_format"], "cell_format"⟩),
  ("meas_vcap2", .bf ⟨0x31, 16, 0, true, [], ["cell_format"], "cell_format"⟩),
  ("meas_vcap3", .bf ⟨0x32, 16, 0, true, [], ["cell_format"], "cell_format"⟩),
  ("meas_vcap4", .bf ⟨0x33, 16, 0, true, [], ["cell_format"], "cell_format"⟩),
  ("cap_m0_vc1", .bf ⟨0x34, 16, 0, true, [], [], "None"⟩),
  ("cap_m0_vc2", .bf ⟨0x35, 16, 0, true, [], [], "None"⟩),
  ("cap_m0_vc3", .bf ⟨0x36, 16, 0, true, [], [], "None"⟩),
  ("cap_m0_vc4", .bf ⟨0x37, 16, 0, true, [], [], "None"⟩),
  ("esr_m0_vc1", .bf ⟨0x38, 16, 0, true, [], [], "None"⟩),
  ("esr_m0_vc2", .bf ⟨0x39, 16, 0, true, [], [], "None"⟩),
  ("esr_m0_vc3", .bf ⟨0x3a, 16, 0, true, [], [], "None"⟩)]

def _register_map_part10 : List (String × RegMapEntry) := [
  ("esr_m0_vc4", .bf ⟨0x3b, 16, 0, true, [], [], "None"⟩),
  ("esr_m1_vc1", .bf ⟨0x3c, 16, 0, true, [], [], "None"⟩),
  ("esr_m1_vc2", .bf ⟨0x3d, 16, 0, true, [], [], "None"⟩),
  ("esr_m1_vc3", .bf ⟨0x3e, 16, 0, true, [], [], "None"⟩),
  ("esr_m1_vc4", .bf ⟨0x3f, 16, 0, true, [], [], "None"⟩),
  ("esr_m1_i", .bf ⟨0x40, 16, 0, true, [], [], "None"⟩),
  ("esr_m2_vc1", .bf ⟨0x41, 16, 0, true, [], [], "None"⟩),
  ("esr_m2_vc2", .bf ⟨0x42, 16, 0, true, [], [], "None"⟩),
  ("esr_m2_vc3", .bf ⟨0x43, 16, 0, true, [], [], "None"⟩),
  ("esr_m2_vc4", .bf ⟨0x44, 16, 0, true, [], [], "None"⟩),
  ("esr_m2_i", .bf ⟨0x45, 16, 0, true, [], [], "None"⟩),
  ("esr_m3_vc1", .bf ⟨0x46, 16, 0, true, [], [], "None"⟩),
  ("esr_m3_vc2", .bf ⟨0x47, 16, 0, true, [], [], "None"⟩),
  ("esr_m3_vc3", .bf ⟨0x48, 16, 0, true, [], [], "None"⟩),
  ("esr_m3_vc4", .bf ⟨0x49, 16, 0, true, [], [], "None"⟩)]

def _register_map_part11 : List (String × RegMapEntry) := [
  ("esr_m3_i", .bf ⟨0x4a, 16, 0, true, [], [], "None"⟩),
  ("rev_code", .bf ⟨0x50, 16, 0, true, [], [], "None"⟩),
  ("next_esr_i", .bf ⟨0x54, 8, 0, true, [], [], "None"⟩),
  ("next_ichrg_control_test_current", .bf ⟨0x54, 16, 0, true, [], [], "None"⟩),
  ("num_caps", .bf ⟨0xed, 2, 0, true, [], [], "None"⟩),
  ("num_caps_reg", .bf ⟨0xed, 16, 0, true, [], [], "None"⟩),
  ("stepdown_mode", .bf ⟨0xee, 1, 0, true, [], [], "None"⟩),
  ("stepup_mode", .bf ⟨0xee, 1, 1, true, [], [], "None"⟩),
  ("chrg_cv", .bf ⟨0xee, 1, 2, true, [], [], "None"⟩),
  ("chrg_uvlo", .bf ⟨0xee, 1, 3, true, [], [], "None"⟩),
  ("chrg_input_ilim", .bf ⟨0xee, 1, 4, true, [], [], "None"⟩),
  ("cappg", .bf ⟨0xee, 1, 5, true, [], [], "None"⟩),
  ("boost_en", .bf ⟨0xee, 1, 7, true, [], [], "None"⟩),
  ("buck_en", .bf ⟨0xee, 1, 8, true, [], [], "None"⟩),
  ("chrg_ci", .bf ⟨0xee, 1, 9, true, [], [], "None"⟩)]

def _register_map_part12 : List (String × RegMapEntry) := [
  ("vingd", .bf ⟨0xee, 1, 11, true, [], [], "None"⟩)]

/-- `_register_map` of the `LTC3351` class: every bit-field dict, in
declaration order (split into parts to keep elaboration tractable). -/
def _register_map : List (String × RegMapEntry) :=
  _register_map_part0 ++ _register_map_part1 ++ _register_map_part2 ++ _register_map_part3 ++ _register_map_part4 ++ _register_map_part5 ++ _register_map_part6 ++ _register_map_part7 ++ _register_map_part8 ++ _register_map_part9 ++ _register_map_part10 ++ _register_map_part11 ++ _register_map_part12

/-- One `_formatters` entry: `{'format': ..., 'unformat': ...,
'description': ..., 'signed': ...}`.  `unformat` returns `none` when the
Python unformat function would not produce an `int` (the
`assert isinstance(data, int)` in `_unformat`). -/
structure Formatter where
  format : ℚ → ℚ
  unformat : PyVal → Option ℤ
  signed : Bool

/-- The datasheet constants `_constants` (exact rationals). -/
def RSNSI : ℚ := 18 / 1000
def RSNSC : ℚ := 12 / 1000
def RTST : ℚ := 121
def RT : ℚ := 71500
def CTL_CAP_SCALE_VALUE : ℚ := 1

/-- A formatter generated by `_update_xml_formatters` from a point list:
both directions come from `_transform_from_points`. -/
def xmlFormatter (points : List (ℚ × ℚ)) (signed : Bool) : Formatter where
  format := transform_from_points_format points
  unformat := fun v =>
    match v with
    | .num q => some (transform_from_points_unformat points q)
    | .str _ => none
  signed := signed

/-- The `'None'` formatter: identity in both directions (`lambda x: x`);
unformatting demands an integer. -/
def noneFormatter : Formatter where
  format := id
  unformat := fun v =>
    match v with
    | .num q => if q.den = 1 then some q.num else none
    | .str _ => none
  signed := false

/-- `_xml_formats` evaluated over `_constants`: name, calibration points,
signed flag. -/
def _xml_formats : List (String × List (ℚ × ℚ) × Bool) := [
  ("cap_format", [(0, 0),
    (1, (336 / 100000000 + 33264 / 100000000 * (1 - CTL_CAP_SCALE_VALUE)) * RT / RTST)], false),
  ("vcapfb_dac_format", [(0, 6375 / 10000), (1, 6375 / 10000 + 375 / 10000)], false),
  ("cell_format", [(0, 0), (1, 1828 / 10000000)], true),
  ("vin_format", [(0, 0), (1, 219 / 100000)], true),
  ("vcap_format", [(0, 0), (1, 146 / 100000)], true),
  ("vout_format", [(0, 0), (1, 219 / 100000)], true),
  ("iin_format", [(0, 0), (1, 1955 / 1000000000 / RSNSI)], true),
  ("dtemp_format", [(0, -274), (1, -274 + 296 / 10000)], true),
  ("esr_format", [(0, 0), (1, RSNSC / 64)], false),
  ("icharge_format", [(0, 0), (1, 1955 / 1000000000 / RSNSC)], true),
  ("cap_zs_format", [(0, 0), (1, 1)], true)]

/-- `_formatters` after `_update_xml_formatters`: the `'None'` identity
formatter plus one generated formatter per XML format. -/
def _formatters (name : String) : Option Formatter :=
  if name = "None" then some noneFormatter
  else ((_xml_formats.find? (fun e => e.1 == name)).map
    (fun e => xmlFormatter e.2.1 e.2.2))

/-- `_format(self, bf_name, data)`: when presets are enabled for the
field, the first preset whose raw value equals `data` (in declaration
order) yields its label; otherwise the active format is applied, with
`_twosComplementToSigned` first for signed formats. -/
def _format (m : List (String × RegMapEntry)) (bf_name : String) (data : ℕ) :
    Except PyErr PyVal :=
  match dictLookup m bf_name with
  | some (.bf d) =>
      match (if d.read_presets_enabled
          then d.presets.find? (fun pv => pv.2 == data) else none) with
      | some pv => .ok (.str pv.1)
      | none =>
          match _formatters d.active_format with
          | none => .error .keyError
          | some f =>
              if f.signed then
                match _twosComplementToSigned data d.size with
                | .ok s => .ok (.num (f.format (s : ℚ)))
                | .error e => .error e
              else .ok (.num (f.format (data : ℚ)))
  | _ => .error .keyError

/-- `_unformat(self, bf_name, data)`: a value equal to a preset label
yields the preset's raw value directly; otherwise the active format's
unformat function runs, followed by `_signedToTwosComplement` for signed
formats or clamping into `[0, 2^size - 1]` (with a printed warning, not
an exception) for unsigned ones. -/
def _unformat (m : List (String × RegMapEntry)) (bf_name : String) (data : PyVal) :
    Except PyErr ℤ :=
  match dictLookup m bf_name with
  | some (.bf d) =>
      match d.presets.find? (fun pv => PyVal.str pv.1 == data) with
      | some pv => .ok (pv.2 : ℤ)
      | none =>
          match _formatters d.active_format with
          | none => .error .keyError
          | some f =>
              match f.unformat data with
              | none => .error .assertionError
              | some i =>
                  if f.signed then .ok (_signedToTwosComplement i d.size)
                  else if i < 0 then .ok 0
                  else if i > 2 ^ d.size - 1 then .ok (2 ^ d.size - 1)
                  else .ok i
  | _ => .error .keyError

/-- `_write_bf(self, bf_name, data)`: whole-word fields are unformatted,
range-checked against the word size and written directly; sub-word fields
are unformatted, the register is read back and the new value packed into
it (read–modify–write).  Returns the `(command_code, word)` handed to
`write_function`. -/
def _write_bf (m : List (String × RegMapEntry))
    (read_function : ℕ → ℕ → Except PyErr ℕ) (addr_7bit : ℕ)
    (bf_name : String) (data : PyVal) : Except PyErr (ℕ × ℕ) :=
  match dictLookup m bf_name with
  | some (.bf d) =>
      if d.size = word_size then
        _unformat m bf_name data >>= fun raw =>
          if raw ≥ (1 <<< word_size) ∨ raw < 0 then
            .error (.api s!"Data:{raw} does not fit in field:{bf_name} of size:{word_size}.")
          else .ok (d.command_code, raw.toNat)
      else
        _unformat m bf_name data >>= fun raw =>
          read_function addr_7bit d.command_code >>= fun old =>
            _pack raw.toNat d.size d.offset old >>= fun packed =>
              .ok (d.command_code, packed)
  | _ => .error .keyError

/-- `enable_read_presets(self, bf_name, enabled=True)` as written: the
assignment target is `self._register_map['bf_nameread_presets_enabled']`
— the literal string, not the field's dict — so the field's own
`read_presets_enabled` flag is never touched. -/
def enable_read_presets (m : List (String × RegMapEntry)) (bf_name : String)
    (enabled : Bool) : List (String × RegMapEntry) :=
  dictInsert m "bf_nameread_presets_enabled" (.flag enabled)

/-- `disable_read_presets(self, bf_name, enabled=False)` delegates to
`enable_read_presets`. -/
def disable_read_presets (m : List (String × RegMapEntry)) (bf_name : String) :
    List (String × RegMapEntry) :=
  enable_read_presets m bf_name false

/-- `get_status(self)`: iterate all register-map keys, read each field,
catch `LTC3351_APIException` per field (`#bit field not readable`) and
skip it; any other exception propagates.  `readBf` is `self[k]`. -/
def get_status : List String → (String → Except PyErr PyVal) →
    Except PyErr (List (String × PyVal))
  | [], _ => .ok []
  | k :: t, readBf =>
      match readBf k with
      | .ok v =>
          match get_status t readBf with
          | .ok rest => .ok ((k, v) :: rest)
          | .error e => .error e
      | .error (.api _) => get_status t readBf
      | .error e => .error e

/-- Values of instance attributes (only their `None`-ness matters to
`__setattr__`). -/
inductive PyObj
  | pyNone
  | pyBool (b : Bool)
  | pyInt (z : ℤ)
  | pyFunc (name : String)
  deriving Repr, DecidableEq

/-- A `LTC3351.__dict__` entry: a bit-field `property` (with `fset`), or
a plain function/class attribute (whose `.fset` lookup raises
`AttributeError`). -/
inductive ClassEntry
  | bfProp (bf_name : String)
  | plain
  deriving Repr, DecidableEq

/-- Methods and class-level attributes of `LTC3351` that are not
bit-field properties. -/
def class_plain_names : List String := ["__init__", "get_status",
  "print_status", "set_device_address", "get_active_format",
  "set_active_format", "enable_read_presets", "disable_read_presets",
  "disable_binary_read_presets", "get_formats", "create_format",
  "set_constant", "get_constant", "list_constants",
  "disable_presets_and_formats", "_error", "__str__", "__repr__",
  "__iter__", "__getitem__", "__setitem__", "__len__", "__setattr__",
  "_read_bf", "_write_bf", "_extract", "_pack", "_transform_from_points",
  "_format", "_unformat", "_signedToTwosComplement",
  "_twosComplementToSigned", "_update_xml_formatters", "_constants",
  "_xml_formats", "_register_map", "_formatters"]

/-- `LTC3351.__dict__`: one generated `property` per register-map key,
plus the plain methods and class attributes. -/
def class_dict (name : String) : Option ClassEntry :=
  if (_register_map.map (·.1)).contains name then some (.bfProp name)
  else if class_plain_names.contains name then some .plain
  else none

def instLookup (inst : List (String × PyObj)) (k : String) : Option PyObj :=
  (inst.find? (fun e => e.1 == k)).map (·.2)

def instInsert : List (String × PyObj) → String → PyObj → List (String × PyObj)
  | [], k, v => [(k, v)]
  | (k', v') :: t, k, v =>
      if k' == k then (k', v) :: t else (k', v') :: instInsert t k v

/-- `__setattr__(self, name, value)`: try the class bit-field property's
`fset` (a `KeyError` from `LTC3351.__dict__[name]` is caught; an
`AttributeError` from `.fset` on a non-property class entry is not);
on `KeyError`, overwrite an existing instance attribute only when
`getattr(self, name, None) is not None`; otherwise raise
`LTC3351_APIException` and leave the instance unchanged.  `fset` models
the bus side effect of `_write_bf`; the returned list is the instance
dict. -/
def LTC3351_setattr (fset : String → PyObj → Except PyErr Unit)
    (inst : List (String × PyObj)) (name : String) (value : PyObj) :
    Except PyErr (List (String × PyObj)) :=
  match class_dict name with
  | some (.bfProp bf) =>
      match fset bf value with
      | .ok _ => .ok inst
      | .error e => .error e
  | some .plain => .error .attributeError
  | none =>
      match instLookup inst name with
      | some v =>
          if v = .pyNone then
            .error (.api s!"Attempted write to non-existant field: {name}.")
          else .ok (instInsert inst name value)
      | none => .error (.api s!"Attempted write to non-existant field: {name}.")

/-- The instance attributes `__init__` installs via `object.__setattr__`
(bypassing the guard). -/
def init_inst (read_function write_function : PyObj) (verbose : Bool) :
    List (String × PyObj) :=
  [("verbose", .pyBool verbose), ("read_function", read_function),
   ("write_function", write_function), ("addr_7bit", .pyInt 9),
   ("word_size", .pyInt 16)]

set_option maxRecDepth 100000 in
/-- C4 (code evaluated at the failing input): with presets enabled
(the shipped default) a read of `ctl_start_cap_esr_meas` whose extracted
raw value is 1 returns the first matching preset label
`'start_measurement'` — but after `disable_read_presets` on that very
field the read still returns the label, because the call stored `False`
under the literal dict key `'bf_nameread_presets_enabled'` instead of
clearing the field's `read_presets_enabled` flag, contradicting its own
docstring. -/
theorem dictLookup_insert_same (k : String) (v : RegMapEntry) :
    ∀ m : List (String × RegMapEntry), (∀ e ∈ m, e.1 ≠ k) →
      dictLookup (dictInsert m k v) k = some v := by
  intro m
  induction m with
  | nil =>
    intro _
    show Option.map _ (List.find? _ [(k, v)]) = some v
    rw [List.find?_cons]
    simp
  | cons e t ih =>
    intro h
    have hne : (e.1 == k) = false := beq_eq_false_iff_ne.mpr (h e (List.mem_cons_self e t))
    show dictLookup (if e.1 == k then (e.1, v) :: t else e :: dictInsert t k v) k = some v
    rw [hne]
    show Option.map _ (List.find? _ (e :: dictInsert t k v)) = some v
    rw [List.find?_cons]
    simp only [hne, cond_false]
    exact ih fun x hx => h x (List.mem_cons_of_mem e hx)

theorem dictLookup_insert_other (k k' : String) (v : RegMapEntry) (hne : k ≠ k') :
    ∀ m : List (String × RegMapEntry),
      dictLookup (dictInsert m k' v) k = dictLookup m k := by
  intro m
  induction m with
  | nil =>
    show Option.map _ (List.find? _ [(k', v)]) = Option.map _ (List.find? _ [])
    rw [List.find?_cons]
    have : (k' == k) = false := beq_eq_false_iff_ne.mpr (Ne.symm hne)
    simp [this]
  | cons e t ih =>
    show dictLookup (if e.1 == k' then (e.1, v) :: t else e :: dictInsert t k' v) k =
      dictLookup (e :: t) k
    by_cases hk : (e.1 == k') = true
    · rw [if_pos hk]
      have hek : (e.1 == k) = false := by
        have : e.1 = k' := by simpa using hk
        exact beq_eq_false_iff_ne.mpr (this ▸ Ne.symm hne)
      show Option.map _ (List.find? _ ((e.1, v) :: t)) = Option.map _ (List.find? _ (e :: t))
      rw [List.find?_cons, List.find?_cons]
      simp only [hek, cond_false]
    · rw [if_neg hk]
      show Option.map _ (List.find? _ (e :: dictInsert t k' v)) =
        Option.map _ (List.find? _ (e :: t))
      rw [List.find?_cons, List.find?_cons]
      by_cases hek : (e.1 == k) = true
      · simp only [hek, cond_true]
      · have hek' : (e.1 == k) = false := by simpa using hek
        simp only [hek', cond_false]
        exact ih

/-- `_format` depends on the register map only through the field's own
entry. -/
theorem format_congr (m1 m2 : List (String × RegMapEntry)) (bf : String)
    (h : dictLookup m1 bf = dictLookup m2 bf) (data : ℕ) :
    _format m1 bf data = _format m2 bf data := by
  unfold _format
  rw [h]

set_option maxRecDepth 100000 in
/-- C4 (code evaluated at the failing input): with presets enabled
(the shipped default) a read of `ctl_start_cap_esr_meas` whose extracted
raw value is 1 returns the first matching preset label
`'start_measurement'` — but after `disable_read_presets` on that very
field the read still returns the label, because the call stored `False`
under the literal dict key `'bf_nameread_presets_enabled'` instead of
clearing the field's `read_presets_enabled` flag, contradicting its own
docstring. -/
theorem disable_read_presets_is_ineffective :
    _format _register_map "ctl_start_cap_esr_meas" 1 = .ok (.str "start_measurement") ∧
    _format (disable_read_presets _register_map "ctl_start_cap_esr_meas")
      "ctl_start_cap_esr_meas" 1 = .ok (.str "start_measurement") ∧
    dictLookup (disable_read_presets _register_map "ctl_start_cap_esr_meas")
      "ctl_start_cap_esr_meas" = dictLookup _register_map "ctl_start_cap_esr_meas" ∧
    dictLookup (disable_read_presets _register_map "ctl_start_cap_esr_meas")
      "bf_nameread_presets_enabled" = some (.flag false) := by
  have h1 : _format _register_map "ctl_start_cap_esr_meas" 1 =
      .ok (.str "start_measurement") := rfl
  have hlk : dictLookup (disable_read_presets _register_map "ctl_start_cap_esr_meas")
      "ctl_start_cap_esr_meas" = dictLookup _register_map "ctl_start_cap_esr_meas" :=
    dictLookup_insert_other _ _ _ (by decide) _
  exact ⟨h1, (format_congr _ _ _ hlk 1).trans h1, hlk,
    dictLookup_insert_same _ _ _ (by decide)⟩

theorem noneFormatter_unformat_int (z : ℤ) :
    noneFormatter.unformat (.num (z : ℚ)) = some z := by
  show (if ((z : ℚ)).den = 1 then some ((z : ℚ)).num else none) = some z
  rw [if_pos (Rat.den_intCast z), Rat.num_intCast]

/-- `_unformat` on a `'None'`-format, preset-free field clamps an
out-of-range integer to the nearest representable bound instead of
raising. -/
theorem unformat_none_out_of_range (m : List (String × RegMapEntry)) (bf : String)
    (d : BFDict) (z : ℤ)
    (hent : dictLookup m bf = some (.bf d))
    (hpre : d.presets = []) (hfmt : d.active_format = "None")
    (hz : z < 0 ∨ (2 : ℤ) ^ d.size ≤ z) :
    _unformat m bf (.num (z : ℚ)) = .ok (if z < 0 then 0 else 2 ^ d.size - 1) := by
  unfold _unformat
  rw [hent]
  show (match List.find? (fun pv => PyVal.str pv.1 == PyVal.num (z : ℚ)) d.presets with
    | some pv => Except.ok (pv.2 : ℤ)
    | none =>
        match _formatters d.active_format with
        | none => Except.error PyErr.keyError
        | some f =>
            match f.unformat (.num (z : ℚ)) with
            | none => Except.error PyErr.assertionError
            | some i =>
                if f.signed then Except.ok (_signedToTwosComplement i d.size)
                else if i < 0 then Except.ok 0
                else if i > 2 ^ d.size - 1 then Except.ok (2 ^ d.size - 1)
                else Except.ok i) = .ok (if z < 0 then 0 else 2 ^ d.size - 1)
  rw [hpre, hfmt]
  show (match noneFormatter.unformat (.num (z : ℚ)) with
    | none => Except.error PyErr.assertionError
    | some i =>
        if noneFormatter.signed then Except.ok (_signedToTwosComplement i d.size)
        else if i < 0 then Except.ok 0
        else if i > 2 ^ d.size - 1 then Except.ok (2 ^ d.size - 1)
        else Except.ok i) = .ok (if z < 0 then 0 else 2 ^ d.size - 1)
  rw [noneFormatter_unformat_int]
  show (if z < 0 then Except.ok 0
    else if z > 2 ^ d.size - 1 then Except.ok (2 ^ d.size - 1)
    else Except.ok z) = .ok (if z < 0 then 0 else 2 ^ d.size - 1)
  by_cases hz0 : z < 0
  · rw [if_pos hz0, if_pos hz0]
  · have hge : (2 : ℤ) ^ d.size ≤ z := hz.resolve_left hz0
    rw [if_neg hz0, if_neg hz0, if_pos (by omega)]

theorem except_bind_ok {α β : Type} (a : α) (f : α → Except PyErr β) :
    (Except.ok a : Except PyErr α) >>= f = f a := rfl

/-- `_write_bf` after resolving the field's register-map entry. -/
theorem write_bf_entry (m : List (String × RegMapEntry))
    (read_function : ℕ → ℕ → Except PyErr ℕ) (addr_7bit : ℕ)
    (bf_name : String) (data : PyVal) (d : BFDict)
    (hent : dictLookup m bf_name = some (.bf d)) :
    _write_bf m read_function addr_7bit bf_name data =
      if d.size = word_size then
        _unformat m bf_name data >>= fun raw =>
          if raw ≥ (1 <<< word_size) ∨ raw < 0 then
            .error (.api s!"Data:{raw} does not fit in field:{bf_name} of size:{word_size}.")
          else .ok (d.command_code, raw.toNat)
      else
        _unformat m bf_name data >>= fun raw =>
          read_function addr_7bit d.command_code >>= fun old =>
            _pack raw.toNat d.size d.offset old >>= fun packed =>
              .ok (d.command_code, packed) := by
  unfold _write_bf
  rw [hent]

/-- C5 counterexample: the raw value 5 is not representable in the 1-bit
field `ctl_gpi_buffer_en`, yet writing it is not an error — the value is
clamped to 1 and packed into the register (bit 1 of command code 0x00)
without any exception. -/
theorem raw_out_of_range_write_not_an_error :
    _write_bf _register_map (fun _ _ => .ok 0) 0x09 "ctl_gpi_buffer_en" (.num 5) =
      .ok (0x00, 2) := by
  have hent : dictLookup _register_map "ctl_gpi_buffer_en" =
      some (.bf ⟨0x00, 1, 1, true, [], [], "None"⟩) := rfl
  rw [write_bf_entry _ _ _ _ _ _ hent]
  have hunf : _unformat _register_map "ctl_gpi_buffer_en" (.num 5) = .ok 1 := by
    have h5 : (5 : ℚ) = ((5 : ℤ) : ℚ) := by norm_num
    rw [h5, unformat_none_out_of_range _register_map _ ⟨0x00, 1, 1, true, [], [], "None"⟩ 5
      hent rfl rfl (Or.inr (by norm_num))]
    norm_num
  rw [if_neg (by rw [word_size]; norm_num), hunf, except_bind_ok]
  show (_pack 1 1 1 0 >>= fun packed => Except.ok (0, packed)) = Except.ok (0, 2)
  rw [pack_ok 1 1 1 0 (by norm_num), except_bind_ok]
  rfl

/-- C5 amended: writing a raw integer that is not representable in the
field's width is not a hard error; `_unformat` clamps it to the nearest
representable bound (printing a warning) and the clamped value is packed
and written.  (Shown for unsigned preset-free `'None'`-format fields; the
hard-error checks in `_write_bf`/`_pack` sit after the clamp and are
unreachable on this path.) -/
theorem write_out_of_range_clamps
    (bf : String) (d : BFDict) (z : ℤ)
    (read_function : ℕ → ℕ → Except PyErr ℕ) (addr old : ℕ)
    (hent : dictLookup _register_map bf = some (.bf d))
    (hpre : d.presets = []) (hfmt : d.active_format = "None")
    (hsize : 1 ≤ d.size) (hso : d.offset + d.size ≤ 16)
    (hread : read_function addr d.command_code = .ok old) (hold : old < 2 ^ 16)
    (hz : z < 0 ∨ (2 : ℤ) ^ d.size ≤ z) :
    ∃ r : ℕ, _write_bf _register_map read_function addr bf (.num (z : ℚ)) =
        .ok (d.command_code, r) ∧
      _extract r d.size d.offset = (if z < 0 then 0 else 2 ^ d.size - 1) := by
  have hunf := unformat_none_out_of_range _register_map bf d z hent hpre hfmt hz
  have h2 : (0 : ℤ) < 2 ^ d.size := by positivity
  have hpowcast : ((2 ^ d.size - 1 : ℕ) : ℤ) = 2 ^ d.size - 1 := by
    push_cast [Nat.one_le_two_pow]
    ring
  set c : ℤ := if z < 0 then 0 else 2 ^ d.size - 1 with hc
  have hc0 : 0 ≤ c := by rw [hc]; split <;> omega
  have hclt : c < 2 ^ d.size := by rw [hc]; split <;> omega
  have hcn : c.toNat = (if z < 0 then 0 else 2 ^ d.size - 1 : ℕ) := by
    rcases lt_or_ge z 0 with hz0 | hz0
    · rw [hc, if_pos hz0, if_pos hz0]
      rfl
    · rw [hc, if_neg (not_lt.mpr hz0), if_neg (not_lt.mpr hz0)]
      omega
  have hcn_lt : c.toNat < 2 ^ d.size := by
    have hnn : ((2 ^ d.size : ℕ) : ℤ) = 2 ^ d.size := by push_cast; ring
    omega
  rw [write_bf_entry _ _ _ _ _ _ hent]
  by_cases hsz : d.size = word_size
  · rw [if_pos hsz, hunf, except_bind_ok]
    have hshift : (((1 <<< word_size : ℕ)) : ℤ) = 65536 := by
      norm_num [word_size, Nat.shiftLeft_eq]
    have hcond : ¬ (c ≥ (((1 <<< word_size : ℕ)) : ℤ) ∨ c < 0) := by
      rw [hshift]
      push_neg
      constructor
      · have : c < 65536 := by
          rw [hsz, word_size] at hclt
          exact lt_of_lt_of_le hclt (by norm_num)
        omega
      · exact hc0
    rw [if_neg hcond]
    refine ⟨c.toNat, rfl, ?_⟩
    have hoff : d.offset = 0 := by rw [hsz, word_size] at hso; omega
    rw [extract_eq, hoff, Nat.shiftRight_zero, Nat.mod_eq_of_lt hcn_lt, hcn]
  · rw [if_neg hsz, hunf, except_bind_ok, hread, except_bind_ok,
      pack_ok c.toNat d.size d.offset old hcn_lt, except_bind_ok]
    refine ⟨_, rfl, ?_⟩
    rw [pack_extract c.toNat d.size d.offset old hcn_lt hso, hcn]

/-- C5 amended witness: writing 5 to the 1-bit `ctl_gpi_buffer_en`
(register 0x00, old contents 0) clamps to 1 and writes 2 = 1 << 1. -/
theorem write_out_of_range_clamps_witness :
    ∃ r : ℕ, _write_bf _register_map (fun _ _ => .ok 0) 0x09 "ctl_gpi_buffer_en"
        (.num ((5 : ℤ) : ℚ)) = .ok (0x00, r) ∧
      _extract r 1 1 = (if (5 : ℤ) < 0 then 0 else 2 ^ 1 - 1) :=
  write_out_of_range_clamps "ctl_gpi_buffer_en" ⟨0x00, 1, 1, true, [], [], "None"⟩ 5
    (fun _ _ => .ok 0) 0x09 0 rfl rfl rfl (by norm_num) (by norm_num) rfl
    (by norm_num) (Or.inr (by norm_num))

/-- C9: the bulk snapshot attempts every field of the register map and
returns exactly the successfully read fields with their values; a field
whose read raises the API exception (`#bit field not readable`) is
skipped without aborting, so every other field is still read and
returned. -/
theorem get_status_partial_success :
    ∀ (keys : List String) (readBf : String → Except PyErr PyVal),
      (∀ k ∈ keys, (∃ v, readBf k = .ok v) ∨ (∃ msg, readBf k = .error (.api msg))) →
      ∃ res, get_status keys readBf = .ok res ∧
        ∀ (k : String) (v : PyVal), (k, v) ∈ res ↔ (k ∈ keys ∧ readBf k = .ok v) := by
  intro keys
  induction keys with
  | nil =>
    intro readBf _
    exact ⟨[], rfl, by simp⟩
  | cons k0 t ih =>
    intro readBf h
    obtain ⟨res', hres', hmem⟩ := ih readBf fun k hk => h k (List.mem_cons_of_mem k0 hk)
    rcases h k0 (List.mem_cons_self k0 t) with ⟨v0, hv0⟩ | ⟨msg, hmsg⟩
    · refine ⟨(k0, v0) :: res', ?_, ?_⟩
      · show (match readBf k0 with
          | Except.ok v =>
              match get_status t readBf with
              | Except.ok rest => Except.ok ((k0, v) :: rest)
              | Except.error e => Except.error e
          | Except.error (PyErr.api _) => get_status t readBf
          | Except.error e => Except.error e) = Except.ok ((k0, v0) :: res')
        rw [hv0, hres']
      · intro k v
        constructor
        · intro hkv
          rcases List.mem_cons.mp hkv with heq | htl
          · have hk : k = k0 := congrArg Prod.fst heq
            have hv : v = v0 := congrArg Prod.snd heq
            subst hk
            subst hv
            exact ⟨List.mem_cons_self k t, hv0⟩
          · obtain ⟨hkt, hok⟩ := (hmem k v).mp htl
            exact ⟨List.mem_cons_of_mem k0 hkt, hok⟩
        · rintro ⟨hkin, hok⟩
          rcases List.mem_cons.mp hkin with rfl | hkt
          · have : v = v0 := by
              rw [hv0] at hok
              exact (Except.ok.inj hok).symm
            subst this
            exact List.mem_cons_self _ _
          · exact List.mem_cons_of_mem _ ((hmem k v).mpr ⟨hkt, hok⟩)
    · refine ⟨res', ?_, ?_⟩
      · show (match readBf k0 with
          | Except.ok v =>
              match get_status t readBf with
              | Except.ok rest => Except.ok ((k0, v) :: rest)
              | Except.error e => Except.error e
          | Except.error (PyErr.api _) => get_status t readBf
          | Except.error e => Except.error e) = Except.ok res'
        rw [hmsg, hres']
      · intro k v
        constructor
        · intro hkv
          obtain ⟨hkt, hok⟩ := (hmem k v).mp hkv
          exact ⟨List.mem_cons_of_mem k0 hkt, hok⟩
        · rintro ⟨hkin, hok⟩
          rcases List.mem_cons.mp hkin with rfl | hkt
          · rw [hmsg] at hok
            exact absurd hok (by simp)
          · exact (hmem k v).mpr ⟨hkt, hok⟩

/-- C9 witness: with field `b` of `[a, b, c]` failing with the API
exception, the snapshot still returns `a` and `c`. -/
theorem get_status_partial_success_witness :
    ∃ res, get_status ["a", "b", "c"]
        (fun k => if k = "b" then (.error (.api "not readable") : Except PyErr PyVal)
          else .ok (.num 1)) = .ok res ∧
      ∀ (k : String) (v : PyVal),
        (k, v) ∈ res ↔ (k ∈ ["a", "b", "c"] ∧
          (if k = "b" then (.error (.api "not readable") : Except PyErr PyVal)
           else .ok (.num 1)) = .ok v) :=
  get_status_partial_success ["a", "b", "c"]
    (fun k => if k = "b" then (.error (.api "not readable") : Except PyErr PyVal)
      else .ok (.num 1))
    (by
      intro k hk
      fin_cases hk
      · exact Or.inl ⟨.num 1, rfl⟩
      · exact Or.inr ⟨"not readable", rfl⟩
      · exact Or.inl ⟨.num 1, rfl⟩)

set_option maxRecDepth 100000 in
/-- C10: `__setattr__` on a name that is neither a bit-field property of
the class nor an existing instance attribute with a non-`None` value
raises `LTC3351_APIException` (`'Attempted write to non-existant
field'`) and leaves the instance dict unchanged (the error return carries
no updated state); in particular `write_function` on an instance built
with `write_function=None` can never be reassigned through normal
attribute assignment. -/
theorem setattr_rejects_unknown_and_none_valued :
    (∀ (fset : String → PyObj → Except PyErr Unit) (inst : List (String × PyObj))
        (name : String) (value : PyObj),
      class_dict name = none →
      (instLookup inst name = none ∨ instLookup inst name = some .pyNone) →
      LTC3351_setattr fset inst name value =
        .error (.api s!"Attempted write to non-existant field: {name}.")) ∧
    (∀ (fset : String → PyObj → Except PyErr Unit) (rf value : PyObj) (verbose : Bool),
      LTC3351_setattr fset (init_inst rf .pyNone verbose) "write_function" value =
        .error (.api "Attempted write to non-existant field: write_function.")) := by
  constructor
  · intro fset inst name value hcls hin
    unfold LTC3351_setattr
    rw [hcls]
    rcases hin with hn | hn
    · rw [hn]
    · rw [hn]
      show (if PyObj.pyNone = PyObj.pyNone then
          Except.error (PyErr.api s!"Attempted write to non-existant field: {name}.")
        else Except.ok (instInsert inst name value)) = _
      rw [if_pos rfl]
  · intro fset rf value verbose
    unfold LTC3351_setattr
    have hcls : class_dict "write_function" = none := by decide
    rw [hcls]
    have hin : instLookup (init_inst rf .pyNone verbose) "write_function" =
        some .pyNone := rfl
    rw [hin]
    show (if PyObj.pyNone = PyObj.pyNone then
        Except.error (PyErr.api s!"Attempted write to non-existant field: write_function.")
      else Except.ok (instInsert (init_inst rf .pyNone verbose) "write_function" value)) = _
    rw [if_pos rfl]
    rfl

set_option maxRecDepth 100000 in
/-- C10 witness: an unknown name on an empty instance dict, and the
`write_function=None` instance. -/
theorem setattr_rejects_unknown_and_none_valued_witness :
    LTC3351_setattr (fun _ _ => .ok ()) [] "bogus_field" (.pyInt 0) =
      .error (.api "Attempted write to non-existant field: bogus_field.") ∧
    LTC3351_setattr (fun _ _ => .ok ()) (init_inst (.pyFunc "rf") .pyNone false)
        "write_function" (.pyFunc "wf") =
      .error (.api "Attempted write to non-existant field: write_function.") :=
  ⟨setattr_rejects_unknown_and_none_valued.1 (fun _ _ => .ok ()) [] "bogus_field"
      (.pyInt 0) (by decide) (Or.inl rfl),
   setattr_rejects_unknown_and_none_valued.2 (fun _ _ => .ok ()) (.pyFunc "rf")
      (.pyFunc "wf") false⟩

end LTC3351
